import Mathlib

/-!
Verification development for the librtdi runtime dependency-injection
container.  The definitions below are a shallow embedding of the engine
implemented in `src/registry.cpp`, `src/resolver.cpp`, `src/validation.cpp`
and `src/exceptions.cpp`:

* `TypeId` (`std::type_index`) is modelled as `String`; the diagnostic
  demangler `internal::demangle` is the identity on that string.
* `std::source_location` values are modelled as opaque strings holding the
  rendering `file:line`; call sites that use the defaulted
  `std::source_location::current()` argument are modelled with `""`.
* raw `void*` object identities are modelled as `Option Nat` (allocation
  numbers, `none` = null); a factory allocation (`make_erased_as`) hands out
  the next fresh number.
* `factory_fn` closures are opaque in C++, but the public registration API
  (`registry.hpp`) only ever creates the closure shapes enumerated by the
  deep `factory_fn` type below: auto-wired constructors produced by
  `add_singleton` / `add_transient` / `add_collection`, the two
  forward-expansion factories and the placeholder built in
  `registry::build`, and the decorator wrapper built by `decorate`.
  A user constructor body is abstracted by `ctor_outcome` (it can succeed,
  throw a `std::exception`, or throw a `di_error`).
* C++ exceptions are modelled with `Except`; the mutable state that
  survives stack unwinding (the singleton cache, the allocation counter and
  the ghost list of factory invocations) is threaded explicitly, so every
  operation returns `Except _ α × resolver_state`.
* unbounded recursion (which in C++ simply never terminates) is cut by a
  fuel parameter; running out of fuel yields the distinguished generic
  error `fuel_exhausted`.
-/

namespace Librtdi

/-- Lifetime of a registration, from `descriptor.hpp` (`enum class
lifetime_kind`). -/
inductive lifetime_kind where
  | singleton
  | transient
deriving DecidableEq, Repr

/-- Rendering of a lifetime, from `to_string(lifetime_kind)`. -/
def lifetime_to_string : lifetime_kind → String
  | .singleton => "singleton"
  | .transient => "transient"

/-- One declared dependency, from `struct dependency_info` in
`descriptor.hpp`. -/
structure dependency_info where
  type : String
  is_collection : Bool
  is_transient : Bool
deriving DecidableEq, Repr

/-- Type-erased owning pointer, from `struct erased_ptr`: the raw pointer
(`none` = null) and whether a deleter is attached (`deleter ≠ nullptr`
means the handle owns its object). -/
structure erased_ptr where
  ptr : Option Nat
  owns : Bool
deriving DecidableEq, Repr

/-- Outcome of running a user implementation constructor inside an
auto-wired factory: it returns normally, throws a `std::exception`
(`what()` = the message), or throws a plain `di_error`. -/
inductive ctor_outcome where
  | ok
  | throw_std (msg : String)
  | throw_di (msg : String)
deriving Repr

/-- Deep representation of the `factory_fn` closures the library creates.
`auto_wired` is the closure generated by the registration templates in
`registry.hpp` (`make_erased_as<I, Impl>(detail::resolve_dep<Deps>(r)...)`);
`forward_singleton`, `forward_transient` and `forward_placeholder` are the
three closures built by forward expansion in `registry::build`; `decorated`
is the wrapper produced by `registry::decorate`, which runs the inner
factory, then resolves the extra dependencies, then runs the decorator
constructor (C++ leaves the order between the moved handle and the extra
`resolve_dep` calls indeterminate; the model fixes inner-then-extras,
which no claim depends on). -/
inductive factory_fn where
  | auto_wired (deps : List dependency_info) (outcome : ctor_outcome)
  | forward_singleton (target_idx : Nat) (cast : Nat → Nat)
  | forward_transient (target_idx : Nat) (cast : Nat → Nat)
  | forward_placeholder
  | decorated (inner : factory_fn) (extra : List dependency_info) (outcome : ctor_outcome)

/-- One registration record, from `struct descriptor` (`descriptor.hpp`)
plus the diagnostic fields used by the `.cpp` files
(`registration_location`, the captured stacktrace, `api_name`).
`reg_trace` models the string `internal::format_registration_trace` renders
for this descriptor (empty when no stacktrace was captured). -/
structure descriptor where
  component_type : String
  lifetime : lifetime_kind
  factory : factory_fn
  dependencies : List dependency_info
  key : String
  is_collection : Bool
  impl_type : Option String
  forward_target : Option String
  forward_cast : Option (Nat → Nat)
  registration_location : String
  reg_trace : String
  api_name : String

/-- Error payloads of the exception hierarchy in `exceptions.hpp` /
`exceptions.cpp`: the base `di_error(message, loc)` and its five
subclasses, each carrying the arguments of its constructor. -/
inductive error_base where
  | di_error (msg : String) (loc : String)
  | not_found (t : String) (key : String) (hint : String) (loc : String)
  | duplicate_registration (t : String) (key : Option String) (loc : String)
  | cyclic_dependency (cycle : List String) (loc : String)
  | lifetime_mismatch (consumer : String) (consumer_lt : String)
      (dep : String) (dep_lt : String) (consumer_impl : Option String) (loc : String)
  | resolution_error (t : String) (inner_what : String) (registration_loc : String)
deriving DecidableEq, Repr

/-- An in-flight container exception: the constructor payload plus the two
mutable fields of `di_error` (`resolution_context_`, `diagnostic_detail_`). -/
structure di_error where
  base : error_base
  resolution_context : String
  diagnostic_detail : String
deriving DecidableEq, Repr

/-- Message formatting of the `di_error` constructor
(`di_error::format_message`): `msg + " [at " + file + ":" + line + "]"`,
with the location rendered as one opaque string. -/
def format_message (msg loc : String) : String :=
  msg ++ " [at " ++ loc ++ "]"

/-- Message stored by each exception constructor in `exceptions.cpp`
(this is what `std::runtime_error::what()` returns before any resolution
context is appended). -/
def base_message : error_base → String
  | .di_error msg loc => format_message msg loc
  | .not_found t key hint loc =>
      format_message ("Component not found: " ++ t
        ++ (if key = "" then "" else " (key=\"" ++ key ++ "\")")
        ++ (if hint = "" then "" else "; " ++ hint)) loc
  | .duplicate_registration t key loc =>
      format_message ("Duplicate registration for: " ++ t
        ++ (match key with
            | none => ""
            | some k => " (key=\"" ++ k ++ "\")")) loc
  | .cyclic_dependency cycle loc =>
      format_message ("Cyclic dependency detected: "
        ++ String.intercalate " -> " cycle) loc
  | .lifetime_mismatch consumer clt dep dlt impl loc =>
      format_message ("lifetime_kind mismatch: " ++ consumer
        ++ (match impl with
            | none => ""
            | some i => " [impl: " ++ i ++ "]")
        ++ " (" ++ clt ++ ") depends on " ++ dep ++ " (" ++ dlt ++ ")") loc
  | .resolution_error t inner regLoc =>
      format_message ("Failed to resolve component " ++ t ++ ": " ++ inner
        ++ (if regLoc = "" then ""
            else " (registered at " ++ regLoc ++ ")")) regLoc

/-- Rendering of `di_error::what()`: the stored message, plus
`" (while resolving <chain>)"` when a resolution context has accrued. -/
def di_error.what (e : di_error) : String :=
  if e.resolution_context = "" then base_message e.base
  else base_message e.base ++ " (while resolving " ++ e.resolution_context ++ ")"

/-- Rendering of `di_error::full_diagnostic()`. -/
def di_error.full_diagnostic (e : di_error) : String :=
  if e.diagnostic_detail = "" then e.what
  else e.what ++ "\n" ++ e.diagnostic_detail

/-- Chain accrual of `di_error::append_resolution_context`: separator
`" -> "`, appended at the end of the existing chain. -/
def di_error.append_resolution_context (e : di_error) (info : String) : di_error :=
  { e with resolution_context :=
      if e.resolution_context = "" then info
      else e.resolution_context ++ " -> " ++ info }

/-- Setter `di_error::set_diagnostic_detail`. -/
def di_error.set_diagnostic_detail (e : di_error) (detail : String) : di_error :=
  { e with diagnostic_detail := detail }

/-- Plain `di_error` with no context or detail yet. -/
def mk_di_error (msg loc : String) : di_error :=
  ⟨.di_error msg loc, "", ""⟩

/-- Error used where the C++ program would recurse without bound (the model
cuts such runs with fuel). -/
def fuel_exhausted : di_error :=
  mk_di_error "model: resolution recursion out of fuel" ""

/-- Build options recognised by `registry::build`.  The field set is taken
from the uses in `registry.cpp` and `validation.cpp`. -/
structure build_options where
  validate_on_build : Bool
  validate_lifetimes : Bool
  detect_cycles : Bool
  eager_singletons : Bool
  allow_empty_collections : Bool
deriving DecidableEq, Repr

/-- Modelled from the spec: the defaults of `build_options` (spec §6, all
five options default to `true`); the struct definition itself is not among
the provided sources, only its uses are. -/
def default_build_options : build_options :=
  ⟨true, true, true, true, true⟩

/-- Mutable resolver state: the singleton cache (`impl::singletons`,
keyed by descriptor index), the allocation counter for fresh object
identities, and a ghost trace of the descriptor indices whose factory was
invoked, in order. -/
structure resolver_state where
  singletons : List (Nat × erased_ptr)
  next_obj : Nat
  invoked : List Nat
deriving DecidableEq, Repr

/-- Cache lookup (`unordered_map::find` by descriptor index). -/
def find_singleton : List (Nat × erased_ptr) → Nat → Option erased_ptr
  | [], _ => none
  | (k, v) :: rest, i => if k = i then some v else find_singleton rest i

/-- Membership of a descriptor in a slot, per the slot key
`(type, key, lifetime, is_collection)` used by both `build_slot_index`
(`validation.cpp`) and `resolver::impl` (`resolver.cpp`). -/
def slot_matches (d : descriptor) (t key : String) (lt : lifetime_kind)
    (coll : Bool) : Bool :=
  decide (d.component_type = t) && decide (d.key = key)
    && decide (d.lifetime = lt) && decide (d.is_collection = coll)

/-- Indices of the descriptors occupying one slot, in vector order.  This
is the list `slot_to_indices[sk]` that both the validator and the resolver
build by scanning the descriptor vector in order. -/
def slot_indices (descs : List descriptor) (t key : String)
    (lt : lifetime_kind) (coll : Bool) : List Nat :=
  (List.range descs.length).filter fun i =>
    match descs[i]? with
    | some d => slot_matches d t key lt coll
    | none => false

/-- Diagnostic accessor-hint string, from `resolver::slot_hint`. -/
def slot_hint (descs : List descriptor) (t key : String)
    (attempted : String) : String :=
  let entries : List (lifetime_kind × Bool × String × String) :=
    [(.singleton, false, "singleton", "get<T>()"),
     (.transient, false, "transient", "create<T>()"),
     (.singleton, true, "singleton collection", "get_all<T>()"),
     (.transient, true, "transient collection", "create_all<T>()")]
  let hints := entries.foldl (fun acc e =>
    match e with
    | (lt, coll, desc_str, sugg) =>
      if (slot_indices descs t key lt coll).isEmpty then acc
      else if acc = "" then desc_str ++ " (use " ++ sugg ++ ")"
      else acc ++ ", " ++ desc_str ++ " (use " ++ sugg ++ ")") ""
  if hints = "" then ""
  else "type is registered as " ++ hints ++ " but was requested via " ++ attempted

/-- Resolution-context tag computed in the `catch (di_error&)` blocks of
`resolver::resolve_singleton_by_index` / `resolve_transient_by_index`:
the component type, plus ` [impl: …]` when an implementation type is
recorded. -/
def chain_tag (d : descriptor) : String :=
  d.component_type
    ++ (match d.impl_type with
        | none => ""
        | some i => " [impl: " ++ i ++ "]")

/-- Enrichment performed by those catch blocks: append the chain tag and,
if the error carries no diagnostic detail yet and the descriptor has a
non-empty registration trace, attach that trace. -/
def annotate_di (d : descriptor) (e : di_error) : di_error :=
  let e1 := e.append_resolution_context (chain_tag d)
  if e1.diagnostic_detail = "" then
    if d.reg_trace = "" then e1 else e1.set_diagnostic_detail d.reg_trace
  else e1

/-- Wrapper built by the `catch (const std::exception&)` blocks: a
`resolution_error` carrying the component type, the inner `what()` and the
registration location, with the registration trace as detail. -/
def wrap_std (d : descriptor) (msg : String) : di_error :=
  ⟨.resolution_error d.component_type msg d.registration_location, "", d.reg_trace⟩

/-- Error result of running one factory: either an in-flight `di_error`
(propagates annotated) or a `std::exception` (gets wrapped into a
`resolution_error` by the resolver frame that invoked the factory). -/
inductive factory_err where
  | di (e : di_error)
  | std (msg : String)

/-- Completion of an auto-wired or decorator factory after its
dependencies resolved: `make_erased_as` allocates a fresh object stored as
the interface pointer with an owning deleter; a throwing constructor
surfaces as the corresponding exception. -/
def run_ctor (st : resolver_state) :
    ctor_outcome → Except factory_err erased_ptr × resolver_state
  | .ok => (.ok ⟨some st.next_obj, true⟩, { st with next_obj := st.next_obj + 1 })
  | .throw_std msg => (.error (.std msg), st)
  | .throw_di msg => (.error (.di (mk_di_error msg "")), st)

mutual

/-- Core of `resolver::resolve_singleton_by_index` (`resolver.cpp`): bounds
check, cache lookup, factory invocation inside the try-region, error
annotation, and insertion of the produced handle into the cache. -/
def resolve_singleton_by_index (descs : List descriptor) :
    Nat → resolver_state → Nat → Except di_error (Option Nat) × resolver_state
  | 0, st, _ => (.error fuel_exhausted, st)
  | fuel + 1, st, idx =>
    match descs[idx]? with
    | none => (.error (mk_di_error "descriptor index out of range" ""), st)
    | some desc =>
      match find_singleton st.singletons idx with
      | some ep => (.ok ep.ptr, st)
      | none =>
        let st1 := { st with invoked := st.invoked ++ [idx] }
        match run_factory descs fuel st1 desc.factory with
        | (.error (.di e), st2) => (.error (annotate_di desc e), st2)
        | (.error (.std msg), st2) => (.error (wrap_std desc msg), st2)
        | (.ok inst, st2) =>
          (.ok inst.ptr, { st2 with singletons := st2.singletons ++ [(idx, inst)] })

/-- Core of `resolver::resolve_transient_by_index`: like the singleton
variant but without the cache. -/
def resolve_transient_by_index (descs : List descriptor) :
    Nat → resolver_state → Nat → Except di_error erased_ptr × resolver_state
  | 0, st, _ => (.error fuel_exhausted, st)
  | fuel + 1, st, idx =>
    match descs[idx]? with
    | none => (.error (mk_di_error "descriptor index out of range" ""), st)
    | some desc =>
      match run_factory descs fuel st desc.factory with
      | (.error (.di e), st1) => (.error (annotate_di desc e), st1)
      | (.error (.std msg), st1) => (.error (wrap_std desc msg), st1)
      | (.ok ep, st1) => (.ok ep, st1)

/-- Behaviour of one library-generated factory closure. -/
def run_factory (descs : List descriptor) :
    Nat → resolver_state → factory_fn → Except factory_err erased_ptr × resolver_state
  | 0, st, _ => (.error (.di fuel_exhausted), st)
  | fuel + 1, st, f =>
    match f with
    | .auto_wired deps outcome =>
      match resolve_deps descs fuel st deps with
      | (.error e, st1) => (.error (.di e), st1)
      | (.ok _, st1) => run_ctor st1 outcome
    | .forward_singleton target_idx cast =>
      match resolve_singleton_by_index descs fuel st target_idx with
      | (.error e, st1) => (.error (.di e), st1)
      | (.ok raw, st1) => (.ok ⟨raw.map cast, false⟩, st1)
    | .forward_transient target_idx cast =>
      match resolve_transient_by_index descs fuel st target_idx with
      | (.error e, st1) => (.error (.di e), st1)
      | (.ok ep, st1) => (.ok ⟨ep.ptr.map cast, true⟩, st1)
    | .forward_placeholder => (.ok ⟨none, false⟩, st)
    | .decorated inner extra outcome =>
      match run_factory descs fuel st inner with
      | (.error e, st1) => (.error e, st1)
      | (.ok _, st1) =>
        match resolve_deps descs fuel st1 extra with
        | (.error e, st2) => (.error (.di e), st2)
        | (.ok _, st2) => run_ctor st2 outcome

/-- Sequential resolution of a dependency pack, as performed by the
auto-wired factory closures (`detail::resolve_dep<Deps>(r)...`). -/
def resolve_deps (descs : List descriptor) :
    Nat → resolver_state → List dependency_info → Except di_error Unit × resolver_state
  | 0, st, _ => (.error fuel_exhausted, st)
  | _ + 1, st, [] => (.ok (), st)
  | fuel + 1, st, d :: rest =>
    match resolve_dep descs fuel st d with
    | (.error e, st1) => (.error e, st1)
    | (.ok _, st1) => resolve_deps descs fuel st1 rest

/-- Resolution of one declared dependency, from `detail::resolve_dep` in
`registry.hpp`: collection-of-transient uses `create_all`, collection uses
`get_all`, transient uses `create` (which throws `not_found` when the slot
is missing or the produced handle is null), and a bare dependency uses
`get` (same null rule). -/
def resolve_dep (descs : List descriptor) :
    Nat → resolver_state → dependency_info → Except di_error Unit × resolver_state
  | 0, st, _ => (.error fuel_exhausted, st)
  | fuel + 1, st, dep =>
    if dep.is_collection && dep.is_transient then
      match create_coll descs fuel st (slot_indices descs dep.type "" .transient true) with
      | (.error e, st1) => (.error e, st1)
      | (.ok _, st1) => (.ok (), st1)
    else if dep.is_collection then
      match get_coll descs fuel st (slot_indices descs dep.type "" .singleton true) with
      | (.error e, st1) => (.error e, st1)
      | (.ok _, st1) => (.ok (), st1)
    else if dep.is_transient then
      match slot_indices descs dep.type "" .transient false with
      | [] =>
        (.error ⟨.not_found dep.type "" (slot_hint descs dep.type "" "create<T>()") "", "", ""⟩, st)
      | front :: _ =>
        match resolve_transient_by_index descs fuel st front with
        | (.error e, st1) => (.error e, st1)
        | (.ok ep, st1) =>
          if ep.ptr = none then
            (.error ⟨.not_found dep.type "" (slot_hint descs dep.type "" "create<T>()") "", "", ""⟩, st1)
          else (.ok (), st1)
    else
      match slot_indices descs dep.type "" .singleton false with
      | [] =>
        (.error ⟨.not_found dep.type "" (slot_hint descs dep.type "" "get<T>()") "", "", ""⟩, st)
      | front :: _ =>
        match resolve_singleton_by_index descs fuel st front with
        | (.error e, st1) => (.error e, st1)
        | (.ok p, st1) =>
          if p = none then
            (.error ⟨.not_found dep.type "" (slot_hint descs dep.type "" "get<T>()") "", "", ""⟩, st1)
          else (.ok (), st1)

/-- Iteration of `resolver::get_collection_impl` over the indices of a
collection slot: each index is resolved as a singleton, in order. -/
def get_coll (descs : List descriptor) :
    Nat → resolver_state → List Nat → Except di_error (List (Option Nat)) × resolver_state
  | 0, st, _ => (.error fuel_exhausted, st)
  | _ + 1, st, [] => (.ok [], st)
  | fuel + 1, st, i :: rest =>
    match resolve_singleton_by_index descs fuel st i with
    | (.error e, st1) => (.error e, st1)
    | (.ok p, st1) =>
      match get_coll descs fuel st1 rest with
      | (.error e, st2) => (.error e, st2)
      | (.ok l, st2) => (.ok (p :: l), st2)

/-- Iteration of `resolver::create_collection_impl` over the indices of a
transient collection slot. -/
def create_coll (descs : List descriptor) :
    Nat → resolver_state → List Nat → Except di_error (List erased_ptr) × resolver_state
  | 0, st, _ => (.error fuel_exhausted, st)
  | _ + 1, st, [] => (.ok [], st)
  | fuel + 1, st, i :: rest =>
    match resolve_transient_by_index descs fuel st i with
    | (.error e, st1) => (.error e, st1)
    | (.ok ep, st1) =>
      match create_coll descs fuel st1 rest with
      | (.error e, st2) => (.error e, st2)
      | (.ok l, st2) => (.ok (ep :: l), st2)

end

/-- Core of `resolver::get_singleton_impl`: look up the single-instance
singleton slot; a missing or empty slot yields a null pointer without an
error, otherwise the front descriptor is resolved. -/
def get_singleton_impl (descs : List descriptor) (fuel : Nat)
    (st : resolver_state) (t key : String) :
    Except di_error (Option Nat) × resolver_state :=
  match slot_indices descs t key .singleton false with
  | [] => (.ok none, st)
  | front :: _ => resolve_singleton_by_index descs fuel st front

/-- Core of `resolver::create_transient_impl`: a missing slot yields a
null (default) erased pointer, otherwise the front descriptor is run. -/
def create_transient_impl (descs : List descriptor) (fuel : Nat)
    (st : resolver_state) (t key : String) :
    Except di_error erased_ptr × resolver_state :=
  match slot_indices descs t key .transient false with
  | [] => (.ok ⟨none, false⟩, st)
  | front :: _ => resolve_transient_by_index descs fuel st front

/-- Core of `resolver::get_collection_impl`: a missing or empty slot
yields an empty vector, otherwise every index is resolved in order. -/
def get_collection_impl (descs : List descriptor) (fuel : Nat)
    (st : resolver_state) (t key : String) :
    Except di_error (List (Option Nat)) × resolver_state :=
  match slot_indices descs t key .singleton true with
  | [] => (.ok [], st)
  | idxs => get_coll descs fuel st idxs

/-- Core of `resolver::create_collection_impl`. -/
def create_collection_impl (descs : List descriptor) (fuel : Nat)
    (st : resolver_state) (t key : String) :
    Except di_error (List erased_ptr) × resolver_state :=
  match slot_indices descs t key .transient true with
  | [] => (.ok [], st)
  | idxs => create_coll descs fuel st idxs

/-- Enumeration-order relation for singleton collections: `ps` arises
from resolving the indices `idxs` as singletons left to right with the
state threaded through, so element `k` of the enumeration is exactly the
pointer produced by `resolve_singleton_by_index` on element `k` of the
slot's index list.  The fuel bookkeeping matches `get_coll`. -/
def singleton_chain (descs : List descriptor) :
    Nat → resolver_state → List Nat → List (Option Nat) → resolver_state → Prop
  | 0, _, _, _, _ => False
  | _ + 1, st, [], ps, st' => ps = [] ∧ st' = st
  | fuel + 1, st, i :: rest, ps, st' =>
    ∃ p stm tl, resolve_singleton_by_index descs fuel st i = (.ok p, stm) ∧
      singleton_chain descs fuel stm rest tl st' ∧ ps = p :: tl

/-- Enumeration-order relation for transient collections, matching
`create_coll`: element `k` of the output is the erased pointer produced by
`resolve_transient_by_index` on element `k` of the slot's index list. -/
def transient_chain (descs : List descriptor) :
    Nat → resolver_state → List Nat → List erased_ptr → resolver_state → Prop
  | 0, _, _, _, _ => False
  | _ + 1, st, [], ps, st' => ps = [] ∧ st' = st
  | fuel + 1, st, i :: rest, ps, st' =>
    ∃ ep stm tl, resolve_transient_by_index descs fuel st i = (.ok ep, stm) ∧
      transient_chain descs fuel stm rest tl st' ∧ ps = ep :: tl

/-- Forward-alias entry kept until build (`registry::Impl::ForwardEntry`).
The public `forward<I, T>` always installs a non-null deleter lambda, so
the deleter is not recorded separately here. -/
structure forward_entry where
  interface_type : String
  target_type : String
  cast : Nat → Nat
  loc : String
  reg_trace : String
  api_name : String

/-- Decorator entry kept until build (`registry::Impl::DecoratorEntry`).
The wrapper closure generated by `registry::decorate` is determined by the
extra dependency pack plus the decorator constructor behaviour. -/
structure decorator_entry where
  interface_type : String
  target_impl : Option String
  extra_deps : List dependency_info
  outcome : ctor_outcome
  loc : String
  reg_trace : String
  api_name : String

/-- Registry state (`registry::Impl`). -/
structure registry where
  descriptors : List descriptor
  decorators : List decorator_entry
  forwards : List forward_entry
  built : Bool

/-- Empty registry produced by the `registry` constructor. -/
def empty_registry : registry := ⟨[], [], [], false⟩

/-- Occupancy test for a single-instance slot
(`registry::Impl::has_single`). -/
def has_single (r : registry) (t key : String) (lt : lifetime_kind) : Bool :=
  r.descriptors.any fun d =>
    decide (d.component_type = t) && decide (d.key = key)
      && decide (d.lifetime = lt) && !d.is_collection

/-- Registration of a single-instance slot (`registry::register_single`);
the factory is the auto-wired closure generated from the dependency pack.
The `!factory` emptiness check of the C++ code cannot fire in this model
because every `factory_fn` value is a valid closure. -/
def register_single (r : registry) (t : String) (lt : lifetime_kind)
    (deps : List dependency_info) (outcome : ctor_outcome) (key : String)
    (impl_type : Option String) (loc reg_trace api_name : String) :
    Except di_error registry :=
  if r.built then
    .error (mk_di_error "Cannot register components after build() has been called" loc)
  else if has_single r t key lt then
    .error ⟨.duplicate_registration t (if key = "" then none else some key) loc, "", ""⟩
  else
    .ok { r with descriptors := r.descriptors ++
      [⟨t, lt, .auto_wired deps outcome, deps, key, false, impl_type,
        none, none, loc, reg_trace, api_name⟩] }

/-- Registration into a collection slot (`registry::register_collection`);
never conflicts. -/
def register_collection (r : registry) (t : String) (lt : lifetime_kind)
    (deps : List dependency_info) (outcome : ctor_outcome) (key : String)
    (impl_type : Option String) (loc reg_trace api_name : String) :
    Except di_error registry :=
  if r.built then
    .error (mk_di_error "Cannot register components after build() has been called" loc)
  else
    .ok { r with descriptors := r.descriptors ++
      [⟨t, lt, .auto_wired deps outcome, deps, key, true, impl_type,
        none, none, loc, reg_trace, api_name⟩] }

/-- Deferred forward registration (`registry::register_forward`). -/
def register_forward (r : registry) (interface_type target_type : String)
    (cast : Nat → Nat) (loc reg_trace api_name : String) :
    Except di_error registry :=
  if r.built then
    .error (mk_di_error "Cannot register components after build() has been called" loc)
  else
    .ok { r with forwards := r.forwards ++
      [⟨interface_type, target_type, cast, loc, reg_trace, api_name⟩] }

/-- Deferred decorator registration (`registry::register_decorator`). -/
def register_decorator (r : registry) (interface_type : String)
    (target_impl : Option String) (extra_deps : List dependency_info)
    (outcome : ctor_outcome) (loc reg_trace api_name : String) :
    Except di_error registry :=
  if r.built then
    .error (mk_di_error "Cannot register decorators after build() has been called" loc)
  else
    .ok { r with decorators := r.decorators ++
      [⟨interface_type, target_impl, extra_deps, outcome, loc, reg_trace, api_name⟩] }

/-- Descriptors produced by one forward entry in step ① of
`registry::build`: one aliased descriptor per non-keyed original
descriptor of the target type, or one placeholder when none matched.  The
scan runs over the original descriptor vector (the expanded descriptors
are appended only after every forward entry has been processed). -/
def expand_forward_entry (original : List descriptor) (fwd : forward_entry) :
    List descriptor :=
  let hits := (List.range original.length).filterMap fun i =>
    match original[i]? with
    | some target =>
      if decide (target.component_type = fwd.target_type) && decide (target.key = "") then
        if target.lifetime = .singleton then
          some ⟨fwd.interface_type, .singleton,
            .forward_singleton i fwd.cast,
            [⟨fwd.target_type, target.is_collection, false⟩],
            "", target.is_collection, target.impl_type,
            some fwd.target_type, some fwd.cast,
            fwd.loc, fwd.reg_trace, fwd.api_name⟩
        else
          some ⟨fwd.interface_type, .transient,
            .forward_transient i fwd.cast,
            [⟨fwd.target_type, target.is_collection,
              decide (target.lifetime = .transient)⟩],
            "", target.is_collection, target.impl_type,
            some fwd.target_type, some fwd.cast,
            fwd.loc, fwd.reg_trace, fwd.api_name⟩
      else none
    | none => none
  if hits.isEmpty then
    [⟨fwd.interface_type, .transient, .forward_placeholder,
      [⟨fwd.target_type, false, false⟩],
      "", false, none, some fwd.target_type, none,
      fwd.loc, fwd.reg_trace, fwd.api_name⟩]
  else hits

/-- Step ① of `registry::build`: all forward entries are expanded against
the original descriptor vector and the results appended at its end. -/
def expand_forwards (original : List descriptor)
    (fwds : List forward_entry) : List descriptor :=
  original ++ fwds.foldl (fun acc fwd => acc ++ expand_forward_entry original fwd) []

/-- Matching test of step ② of `registry::build`: the decorator applies to
descriptors of its interface type and, when it names a target
implementation, only to descriptors recording that implementation type. -/
def decorator_matches (dec : decorator_entry) (d : descriptor) : Bool :=
  decide (d.component_type = dec.interface_type)
    && (match dec.target_impl with
        | none => true
        | some t =>
          match d.impl_type with
          | none => false
          | some i => decide (i = t))

/-- Application of one decorator entry: every matching descriptor has its
factory wrapped and the extra dependencies appended to its dependency
list. -/
def apply_decorator_entry (dec : decorator_entry) (descs : List descriptor) :
    List descriptor :=
  descs.map fun d =>
    if decorator_matches dec d then
      { d with factory := .decorated d.factory dec.extra_deps dec.outcome,
               dependencies := d.dependencies ++ dec.extra_deps }
    else d

/-- Step ② of `registry::build`: decorators are applied in registration
order, so a later decorator wraps the factory produced by an earlier one. -/
def apply_decorators (decs : List decorator_entry)
    (descs : List descriptor) : List descriptor :=
  decs.foldl (fun ds dec => apply_decorator_entry dec ds) descs

/-- Diagnostic hint built by `check_missing_dependencies` for the consumer
of a missing dependency. -/
def missing_hint (desc : descriptor) : String :=
  "required by " ++ desc.component_type
    ++ (match desc.impl_type with
        | none => ""
        | some i => " [impl: " ++ i ++ "]")
    ++ " (" ++ lifetime_to_string desc.lifetime ++ ")"
    ++ (if desc.registration_location = "" then ""
        else " registered at " ++ desc.registration_location)

/-- Scan of one descriptor's dependency list by
`check_missing_dependencies` (`validation.cpp`): collection dependencies
are skipped when empty collections are allowed; otherwise the slot
`(type, "", is_transient ? transient : singleton, is_collection)` must be
non-empty. -/
def check_deps_of (descs : List descriptor) (options : build_options)
    (loc : String) (desc : descriptor) :
    List dependency_info → Except di_error Unit
  | [] => .ok ()
  | dep :: rest =>
    if dep.is_collection && options.allow_empty_collections then
      check_deps_of descs options loc desc rest
    else
      let needed_lt := if dep.is_transient then lifetime_kind.transient
                       else lifetime_kind.singleton
      if (slot_indices descs dep.type "" needed_lt dep.is_collection).isEmpty then
        .error ⟨.not_found dep.type "" (missing_hint desc) loc, "", desc.reg_trace⟩
      else check_deps_of descs options loc desc rest

/-- Outer loop of `check_missing_dependencies` over the descriptor
vector. -/
def check_missing_aux (descs : List descriptor) (options : build_options)
    (loc : String) : List descriptor → Except di_error Unit
  | [] => .ok ()
  | d :: rest =>
    match check_deps_of descs options loc d d.dependencies with
    | .error e => .error e
    | .ok _ => check_missing_aux descs options loc rest

/-- Pass 1 of the validator: every declared dependency must have an
occupying slot (`check_missing_dependencies` in `validation.cpp`). -/
def check_missing_dependencies (descs : List descriptor)
    (options : build_options) (loc : String) : Except di_error Unit :=
  check_missing_aux descs options loc descs

/-- Pass 2 of the validator: a singleton descriptor must not declare a
bare transient dependency (`check_lifetime_rules`). -/
def check_lifetime_rules (loc : String) :
    List descriptor → Except di_error Unit
  | [] => .ok ()
  | d :: rest =>
    if d.lifetime = .singleton then
      match d.dependencies.find? (fun dep => dep.is_transient && !dep.is_collection) with
      | some dep =>
        .error ⟨.lifetime_mismatch d.component_type "singleton" dep.type "transient"
                  d.impl_type loc, "", d.reg_trace⟩
      | none => check_lifetime_rules loc rest
    else check_lifetime_rules loc rest

/-- DFS colouring used by cycle detection (`enum class visit_state`). -/
inductive visit_state where
  | unvisited
  | in_progress
  | done
deriving DecidableEq, Repr

/-- Lookup in the `std::map<type_index, visit_state>`; `operator[]`
defaults a missing key to `unvisited`. -/
def get_state (states : List (String × visit_state)) (t : String) : visit_state :=
  match states with
  | [] => .unvisited
  | (k, v) :: rest => if k = t then v else get_state rest t

/-- Update of one key in the visit-state map. -/
def set_state (states : List (String × visit_state)) (t : String)
    (s : visit_state) : List (String × visit_state) :=
  match states with
  | [] => [(t, s)]
  | (k, v) :: rest => if k = t then (t, s) :: rest else (k, v) :: set_state rest t s

/-- Diagnostic detail attached to a cycle error: for each type on the
cycle, the registration trace of the first descriptor providing it, the
non-empty traces joined by newlines. -/
def cycle_detail (descs : List descriptor) (cycle : List String) : String :=
  cycle.foldl (fun acc ti =>
    match descs.find? (fun d => decide (d.component_type = ti)) with
    | some d =>
      if d.reg_trace = "" then acc
      else if acc = "" then d.reg_trace
      else acc ++ "\n" ++ d.reg_trace
    | none => acc) ""

mutual

/-- Depth-first cycle search from `validation.cpp`: visit state is keyed
on the type alone, but the descriptors expanded at a node are those of the
slot `(node, "", is_transient ? transient : singleton, is_collection)`
determined by the dependency shape through which the node was reached.  A
node already on the stack yields a `cyclic_dependency` whose path runs
from the first occurrence of the node in the path to the duplicate,
inclusive. -/
def dfs (descs : List descriptor) (loc : String) :
    Nat → List (String × visit_state) → List String → String → Bool → Bool →
    Except di_error (List (String × visit_state) × List String)
  | 0, _, _, _, _, _ => .error fuel_exhausted
  | fuel + 1, states, path, node, is_coll, is_trans =>
    match get_state states node with
    | .done => .ok (states, path)
    | .in_progress =>
      let cycle := (path.dropWhile (fun t => !decide (t = node))) ++ [node]
      .error ⟨.cyclic_dependency cycle loc, "", cycle_detail descs cycle⟩
    | .unvisited =>
      let states1 := set_state states node .in_progress
      let path1 := path ++ [node]
      let needed_lt := if is_trans then lifetime_kind.transient
                       else lifetime_kind.singleton
      match dfs_indices descs loc fuel states1 path1
              (slot_indices descs node "" needed_lt is_coll) with
      | .error e => .error e
      | .ok (states2, path2) =>
        .ok (set_state states2 node .done, path2.dropLast)

/-- Iteration over the descriptors of the current slot. -/
def dfs_indices (descs : List descriptor) (loc : String) :
    Nat → List (String × visit_state) → List String → List Nat →
    Except di_error (List (String × visit_state) × List String)
  | 0, _, _, _ => .error fuel_exhausted
  | _ + 1, states, path, [] => .ok (states, path)
  | fuel + 1, states, path, i :: rest =>
    match descs[i]? with
    | none => dfs_indices descs loc fuel states path rest
    | some d =>
      match dfs_deps descs loc fuel states path d.dependencies with
      | .error e => .error e
      | .ok (states1, path1) => dfs_indices descs loc fuel states1 path1 rest

/-- Iteration over one descriptor's declared dependencies. -/
def dfs_deps (descs : List descriptor) (loc : String) :
    Nat → List (String × visit_state) → List String → List dependency_info →
    Except di_error (List (String × visit_state) × List String)
  | 0, _, _, _ => .error fuel_exhausted
  | _ + 1, states, path, [] => .ok (states, path)
  | fuel + 1, states, path, dep :: rest =>
    match dfs descs loc fuel states path dep.type dep.is_collection dep.is_transient with
    | .error e => .error e
    | .ok (states1, path1) => dfs_deps descs loc fuel states1 path1 rest

end

/-- Root loop of `check_cycles`: every descriptor whose component type is
still unvisited starts a DFS shaped by that descriptor's own slot
variant. -/
def check_cycles_aux (descs : List descriptor) (loc : String) (fuel : Nat) :
    List (String × visit_state) → List descriptor → Except di_error Unit
  | _, [] => .ok ()
  | states, d :: rest =>
    if get_state states d.component_type = .unvisited then
      match dfs descs loc fuel states [] d.component_type d.is_collection
              (decide (d.lifetime = .transient)) with
      | .error e => .error e
      | .ok (states1, _) => check_cycles_aux descs loc fuel states1 rest
    else check_cycles_aux descs loc fuel states rest

/-- Pass 3 of the validator (`check_cycles`). -/
def check_cycles (descs : List descriptor) (loc : String) (fuel : Nat) :
    Except di_error Unit :=
  check_cycles_aux descs loc fuel [] descs

/-- The validator entry point `validate_descriptors` (`validation.cpp`):
missing dependencies, then (optionally) the captive-lifetime pass, then
(optionally) cycle detection. -/
def validate_descriptors (descs : List descriptor) (options : build_options)
    (loc : String) (fuel : Nat) : Except di_error Unit :=
  match check_missing_dependencies descs options loc with
  | .error e => .error e
  | .ok _ =>
    match (if options.validate_lifetimes then check_lifetime_rules loc descs else .ok ()) with
    | .error e => .error e
    | .ok _ =>
      if options.detect_cycles then check_cycles descs loc fuel else .ok ()

/-- Indices of the singleton descriptors, collected by step ④ of
`registry::build` for eager instantiation. -/
def singleton_indices (descs : List descriptor) : List Nat :=
  (List.range descs.length).filter fun i =>
    match descs[i]? with
    | some d => decide (d.lifetime = .singleton)
    | none => false

/-- Step ⑤ of `registry::build`: resolve every singleton descriptor once;
any factory failure aborts the build. -/
def eager_resolve (descs : List descriptor) (fuel : Nat) :
    resolver_state → List Nat → Except di_error resolver_state
  | st, [] => .ok st
  | st, i :: rest =>
    match resolve_singleton_by_index descs fuel st i with
    | (.error e, _) => .error e
    | (.ok _, st1) => eager_resolve descs fuel st1 rest

/-- The frozen resolver handed out by `build`: the final descriptor vector
plus the runtime state (cache pre-filled when eager instantiation ran). -/
structure built_resolver where
  descriptors : List descriptor
  state : resolver_state

/-- The initial resolver state: empty cache, allocation counter at zero. -/
def initial_state : resolver_state := ⟨[], 0, []⟩

/-- `registry::build`: one-shot check, forward expansion, decorator
application, validation, eager singleton instantiation. -/
def build (r : registry) (options : build_options) (loc : String)
    (fuel : Nat) : Except di_error built_resolver :=
  if r.built then .error (mk_di_error "build() can only be called once" loc)
  else
    let ds := apply_decorators r.decorators (expand_forwards r.descriptors r.forwards)
    match (if options.validate_on_build then validate_descriptors ds options loc fuel
           else .ok ()) with
    | .error e => .error e
    | .ok _ =>
      if options.eager_singletons then
        match eager_resolve ds fuel initial_state (singleton_indices ds) with
        | .error e => .error e
        | .ok st => .ok ⟨ds, st⟩
      else .ok ⟨ds, initial_state⟩

/-- Kind tester: is the payload a `lifetime_mismatch`? -/
def is_lifetime_mismatch : error_base → Bool
  | .lifetime_mismatch .. => true
  | _ => false

/-- Kind tester: is the payload a `cyclic_dependency`? -/
def is_cyclic_dependency : error_base → Bool
  | .cyclic_dependency .. => true
  | _ => false

/-- Kind tester: is the payload a `not_found`? -/
def is_not_found : error_base → Bool
  | .not_found .. => true
  | _ => false

/-- Kind tester: is the payload a `duplicate_registration`? -/
def is_duplicate_registration : error_base → Bool
  | .duplicate_registration .. => true
  | _ => false

/-- Errors that the runtime resolution machinery can produce: anything
except the three validator/registration kinds (those are only thrown by
`validate_descriptors` and `register_single`). -/
def runtime_error_kind (b : error_base) : Bool :=
  !(is_lifetime_mismatch b || is_cyclic_dependency b || is_duplicate_registration b)

/-- A captive dependency in the sense of `check_lifetime_rules`: some
singleton descriptor declares a bare (non-collection) transient
dependency. -/
def has_captive (ds : List descriptor) : Bool :=
  ds.any fun d =>
    decide (d.lifetime = .singleton)
      && d.dependencies.any fun dep => dep.is_transient && !dep.is_collection

/-- One dependency violating the missing-dependency rule: not skipped as
an allowed empty collection, and with an empty occupying slot. -/
def dep_missing (ds : List descriptor) (options : build_options)
    (dep : dependency_info) : Bool :=
  !(dep.is_collection && options.allow_empty_collections)
    && (slot_indices ds dep.type ""
          (if dep.is_transient then .transient else .singleton)
          dep.is_collection).isEmpty

/-- A missing declared dependency in the sense of
`check_missing_dependencies`: some descriptor declares a dependency whose
slot `(type, "", lifetime-from-shape, is_collection)` is empty, where a
collection dependency counts as satisfied when empty collections are
allowed. -/
def missing_dep_exists (ds : List descriptor) (options : build_options) : Bool :=
  ds.any fun d => d.dependencies.any (dep_missing ds options)

/-- All descriptor indices that resolving one declared dependency can pass
to `resolve_singleton_by_index` / `resolve_transient_by_index` lie in `S`.
The branches mirror `resolve_dep`: a collection shape walks every index of
the matching slot, a bare shape runs only the slot front. -/
def dep_within (descs : List descriptor) (S : List Nat)
    (dep : dependency_info) : Bool :=
  if dep.is_collection && dep.is_transient then
    (slot_indices descs dep.type "" .transient true).all fun k => decide (k ∈ S)
  else if dep.is_collection then
    (slot_indices descs dep.type "" .singleton true).all fun k => decide (k ∈ S)
  else if dep.is_transient then
    match (slot_indices descs dep.type "" .transient false).head? with
    | none => true
    | some front => decide (front ∈ S)
  else
    match (slot_indices descs dep.type "" .singleton false).head? with
    | none => true
    | some front => decide (front ∈ S)

/-- Every descriptor index a factory closure can resolve directly lies in
`S`. -/
def factory_within (descs : List descriptor) (S : List Nat) : factory_fn → Bool
  | .auto_wired deps _ => deps.all (dep_within descs S)
  | .forward_singleton t _ => decide (t ∈ S)
  | .forward_transient t _ => decide (t ∈ S)
  | .forward_placeholder => true
  | .decorated inner extra _ =>
      factory_within descs S inner && extra.all (dep_within descs S)

/-- Every direct callee of descriptor `j` lies in `S` (vacuously true for
an out-of-range index, whose resolution fails without running a factory). -/
def callees_within (descs : List descriptor) (S : List Nat) (j : Nat) : Bool :=
  match descs[j]? with
  | none => true
  | some d => factory_within descs S d.factory

/-- `S` is closed under the direct-callee relation of the descriptor
vector: a resolution started at an index in `S` only ever resolves
indices in `S`.  Together with `callees_within descs S idx = true` and
`idx ∉ S` this says that no resolution of `idx` can re-enter `idx`,
i.e. `idx` does not lie on a dependency cycle — the regime every
validated build guarantees; descriptors outside `S` may freely depend on
`idx`. -/
def callee_closed (descs : List descriptor) (S : List Nat) : Bool :=
  S.all (callees_within descs S)

/-- Bare singleton dependency on a type. -/
def dep_on (t : String) : dependency_info := ⟨t, false, false⟩

/-- Bare transient dependency on a type. -/
def dep_transient (t : String) : dependency_info := ⟨t, false, true⟩

/-- Singleton-collection dependency on a type. -/
def dep_collection (t : String) : dependency_info := ⟨t, true, false⟩

/-- Collection-of-transients dependency on a type. -/
def dep_transient_collection (t : String) : dependency_info := ⟨t, true, true⟩


/-- Identity pointer adjustment (the cast generated by `forward<I, T>`
when no pointer adjustment is needed). -/
def idcast : Nat → Nat := fun p => p

/-- Configuration with one singleton registration of `T` and two identical
forward aliases `forward(I, T)`, built through the public registration
API. -/
def cfg_double_forward : Except di_error registry :=
  (register_single empty_registry "T" .singleton [] .ok "" (some "TImpl") "" "" "").bind fun r =>
  (register_forward r "I" "T" idcast "" "" "").bind fun r =>
  register_forward r "I" "T" idcast "" "" ""

/-- Configuration whose type-level dependency graph has the cycle
`IA → IB → IA`, with the `IA → IB` edge declared as a (never-registered)
singleton-collection dependency: `IA` is a singleton depending on
`collection<IB>`, and `IB` is a singleton depending on `IA`. -/
def cfg_hidden_cycle : Except di_error registry :=
  (register_single empty_registry "IA" .singleton [dep_collection "IB"] .ok "" (some "AImpl") "" "" "").bind fun r =>
  register_single r "IB" .singleton [dep_on "IA"] .ok "" (some "BImpl") "" "" ""

/-- Two singletons depending on each other through bare dependencies: the
canonical two-type cycle of spec scenario 5, parametric in the two type
names. -/
def cfg_two_cycle (a b : String) : Except di_error registry :=
  (register_single empty_registry a .singleton [dep_on b] .ok "" (some "AImpl") "" "" "").bind fun r =>
  register_single r b .singleton [dep_on a] .ok "" (some "BImpl") "" "" ""

/-- Singleton chain `IA → IB → IX` where `IX` is never registered (the
three-level nesting scenario of the resolution-chain tests). -/
def cfg_chain : Except di_error registry :=
  (register_single empty_registry "IA" .singleton [dep_on "IB"] .ok "" (some "AImpl") "" "" "").bind fun r =>
  register_single r "IB" .singleton [dep_on "IX"] .ok "" (some "BImpl") "" "" ""

/-- Options used to build validation-rejected configurations anyway:
validation off, eager instantiation off. -/
def lenient_options : build_options := ⟨false, true, true, false, true⟩

/-- Options with full validation but no eager singleton instantiation. -/
def no_eager_options : build_options := ⟨true, true, true, false, true⟩

/-- Configuration on which every declared dependency has an occupying slot
and yet eager singleton instantiation raises `not_found`: the placeholder
appended for `forward(X, W)` (whose own dependency is satisfied by the
descriptor generated for `forward(W, U)`) produces a null instance, and
`create<X>` inside the collection element factory treats that null as not
found. -/
def cfg_placeholder_eager : Except di_error registry :=
  (register_single empty_registry "U" .singleton [] .ok "" (some "UImpl") "" "" "").bind fun r =>
  (register_collection r "CI" .transient [dep_transient "X"] .ok "" (some "T1Impl") "" "" "").bind fun r =>
  (register_single r "S" .singleton [dep_transient_collection "CI"] .ok "" (some "SImpl") "" "" "").bind fun r =>
  (register_forward r "W" "U" idcast "" "" "").bind fun r =>
  register_forward r "X" "W" idcast "" "" ""

/-- One singleton registration of `T` plus `forward(I, T)` with an
arbitrary pointer adjustment. -/
def cfg_forward_single (cast : Nat → Nat) : Except di_error registry :=
  (register_single empty_registry "T" .singleton [] .ok "" (some "TImpl") "" "" "").bind fun r =>
  register_forward r "I" "T" cast "" "" ""

/-- Captive-lifetime scenario 6 of the spec: `IT` transient, `IS`
singleton with a bare transient dependency on `IT`. -/
def cfg_captive : Except di_error registry :=
  (register_single empty_registry "IT" .transient [] .ok "" (some "TImpl") "" "" "").bind fun r =>
  register_single r "IS" .singleton [dep_transient "IT"] .ok "" (some "SImpl") "" "" ""

/-- Captive dependency whose transient target is not registered at all:
the missing-dependency pass fires before the captive-lifetime pass. -/
def cfg_captive_missing : Except di_error registry :=
  register_single empty_registry "IS" .singleton [dep_transient "IT"] .ok "" (some "SImpl") "" "" ""

/-- Decorator scenario for claim C10: singleton `IS` with no
dependencies, transient `IT`, and a decorator on `IS` declaring a bare
transient extra dependency on `IT`. -/
def cfg_decorated_captive : Except di_error registry :=
  (register_single empty_registry "IS" .singleton [] .ok "" (some "SImpl") "" "" "").bind fun r =>
  (register_single r "IT" .transient [] .ok "" (some "TImpl") "" "" "").bind fun r =>
  register_decorator r "IS" none [dep_transient "IT"] .ok "" "" ""

/-- Three collection registrations for one interface in a fixed order
(spec scenario 3), plus an unrelated singleton. -/
def cfg_three_plugins : Except di_error registry :=
  (register_collection empty_registry "IPlugin" .singleton [] .ok "" (some "A") "" "" "").bind fun r =>
  (register_collection r "IPlugin" .singleton [] .ok "" (some "B") "" "" "").bind fun r =>
  register_collection r "IPlugin" .singleton [] .ok "" (some "C") "" "" ""

/-- Three transient collection registrations for one interface in a fixed
order. -/
def cfg_three_transients : Except di_error registry :=
  (register_collection empty_registry "IJob" .transient [] .ok "" (some "A") "" "" "").bind fun r =>
  (register_collection r "IJob" .transient [] .ok "" (some "B") "" "" "").bind fun r =>
  register_collection r "IJob" .transient [] .ok "" (some "C") "" "" ""

/-- Singleton whose dependency resolves and whose constructor then throws:
`IA` (singleton, depends on `IB`, constructor throws) over `IB`
(singleton, fine). -/
def cfg_failing_singleton : Except di_error registry :=
  (register_single empty_registry "IB" .singleton [] .ok "" (some "BImpl") "" "" "").bind fun r =>
  register_single r "IA" .singleton [dep_on "IB"] (.throw_std "boom") "" (some "AImpl") "" "" ""

end Librtdi

namespace Librtdi

/-- Registry already holding one unkeyed singleton registration of `IL`
(used to exercise the duplicate-registration path). -/
def reg_one_singleton : registry :=
  { empty_registry with descriptors :=
      [⟨"IL", .singleton, .auto_wired [] .ok, [], "", false, some "LImpl",
        none, none, "", "", ""⟩] }

/-- End-to-end run for the forward-transparency scenario: build
`cfg_forward_single cast` without eager instantiation, resolve `I`, then
resolve `T`, and return both pointers with the final state. -/
def c4_run (cast : Nat → Nat) :
    Except di_error (Option Nat × Option Nat × resolver_state) :=
  (cfg_forward_single cast).bind fun r =>
  (build r no_eager_options "" 100).bind fun b =>
  match get_singleton_impl b.descriptors 100 b.state "I" "" with
  | (.error e, _) => .error e
  | (.ok pI, st1) =>
    match get_singleton_impl b.descriptors 100 st1 "T" "" with
    | (.error e, _) => .error e
    | (.ok pT, st2) => .ok (pI, pT, st2)

/-- The in-flight error produced by resolving `IA` on the built
`cfg_chain` resolver (whose nested dependency `IX` is missing). -/
def c5_error : Option di_error :=
  match cfg_chain.bind (fun r => build r lenient_options "" 100) with
  | .error _ => none
  | .ok b =>
    match get_singleton_impl b.descriptors 100 b.state "IA" "" with
    | (.error e, _) => some e
    | (.ok _, _) => none

/-- Descriptor vector of the failing-singleton scenario: `IB` at index 0
(fine), `IA` at index 1 (depends on `IB`, constructor throws). -/
def c6_descs : List descriptor :=
  [⟨"IB", .singleton, .auto_wired [] .ok, [], "", false, some "BImpl",
    none, none, "", "", ""⟩,
   ⟨"IA", .singleton, .auto_wired [dep_on "IB"] (.throw_std "boom"),
    [dep_on "IB"], "", false, some "AImpl", none, none, "", "", ""⟩]

/-- Singleton `A` depending on the never-registered `B`. -/
def cfg_missing : Except di_error registry :=
  register_single empty_registry "A" .singleton [dep_on "B"] .ok "" (some "AImpl") "" "" ""

/-- Singleton chain `L ← M ← S`: leaf `L` at index 0, `M` at index 1
depending on `L`, consumer `S` at index 2 depending on `M`.  Indices 0
and 1 are each depended upon by another descriptor's factory. -/
def chain3_descs : List descriptor :=
  [⟨"L", .singleton, .auto_wired [] .ok, [], "", false, some "LImpl",
    none, none, "", "", ""⟩,
   ⟨"M", .singleton, .auto_wired [dep_on "L"] .ok, [dep_on "L"], "", false,
    some "MImpl", none, none, "", "", ""⟩,
   ⟨"S", .singleton, .auto_wired [dep_on "M"] .ok, [dep_on "M"], "", false,
    some "SImpl", none, none, "", "", ""⟩]

/-- Throwing singleton that another singleton depends on: `F` at index 0
(constructor throws), consumer `C` at index 1 depending on `F`. -/
def thrower_descs : List descriptor :=
  [⟨"F", .singleton, .auto_wired [] (.throw_std "boom"), [], "", false,
    some "FImpl", none, none, "", "", ""⟩,
   ⟨"C", .singleton, .auto_wired [dep_on "F"] .ok, [dep_on "F"], "", false,
    some "CImpl", none, none, "", "", ""⟩]

/-- The registry produced by a successful registration chain (falls back
to the empty registry on error; all chains used below succeed). -/
def reg_of (x : Except di_error registry) : registry :=
  match x with
  | .ok r => r
  | .error _ => empty_registry

/-- Descriptor vector of the three-plugin singleton collection scenario. -/
def plugin_descs : List descriptor := (reg_of cfg_three_plugins).descriptors

/-- Descriptor vector of the three-plugin transient collection scenario. -/
def transient_descs : List descriptor := (reg_of cfg_three_transients).descriptors

end Librtdi

-- ===================================================================
-- Theorems
-- ===================================================================

namespace Librtdi

/-- Claim C1, counterexample: after a successful `build` of
`cfg_double_forward` (one singleton `T`, two identical `forward(I, T)`
registrations, all accepted by the registration API), the single-instance
slot `(I, "", singleton, is_collection = false)` holds two descriptors,
contradicting the claimed at-most-one invariant for every successful
build. -/
theorem c1_refuted :
    (match cfg_double_forward.bind (fun r => build r default_build_options "" 100) with
     | .ok b => (slot_indices b.descriptors "I" "" .singleton false).length
     | .error _ => 0) = 2 := by
  rfl

/-- Claim C1, amended: the at-most-one-descriptor invariant for
single-instance slots is enforced at registration time only — a second
`register_single` for an occupied slot `(type, key, lifetime,
is_collection = false)` fails with `duplicate_registration` (keyed form
when the key is non-empty) — while build-time forward expansion may add
further descriptors to such a slot. -/
theorem c1_single_slot_uniqueness (r : registry) (t key : String)
    (lt : lifetime_kind) (deps : List dependency_info) (outcome : ctor_outcome)
    (impl_type : Option String) (loc reg_trace api_name : String)
    (hbuilt : r.built = false)
    (hocc : has_single r t key lt = true) :
    register_single r t lt deps outcome key impl_type loc reg_trace api_name =
      .error ⟨.duplicate_registration t (if key = "" then none else some key) loc, "", ""⟩ := by
  unfold register_single
  rw [hbuilt, hocc]
  simp

/-- Witness for `c1_single_slot_uniqueness` on a concrete occupied slot. -/
theorem c1_single_slot_uniqueness_witness :
    reg_one_singleton.built = false ∧
    has_single reg_one_singleton "IL" "" .singleton = true ∧
    register_single reg_one_singleton "IL" .singleton [] .ok "" (some "LImpl") "" "" "" =
      .error ⟨.duplicate_registration "IL" none "", "", ""⟩ := by
  refine ⟨rfl, by decide, ?_⟩
  exact c1_single_slot_uniqueness reg_one_singleton "IL" "" .singleton [] .ok
    (some "LImpl") "" "" "" rfl (by decide)

/-- Claim C3, counterexample: `cfg_hidden_cycle` builds successfully with
default options, although the dependency graph on `TypeId` nodes taken
from the declared dependency lists has the directed cycle
`IA → IB → IA` (the edge `IA → IB` is declared as a singleton-collection
dependency whose slot is empty, so the DFS never follows it). -/
theorem c3_refuted :
    (match cfg_hidden_cycle.bind (fun r => build r default_build_options "" 100) with
     | .ok b =>
        decide (b.descriptors.map descriptor.component_type = ["IA", "IB"])
          && decide (b.descriptors.map descriptor.dependencies =
               [[dep_collection "IB"], [dep_on "IA"]])
     | .error _ => false) = true := by
  rfl

end Librtdi

namespace Librtdi

/-- Claim C3, amended: cycle detection follows dependency edges through
the slot matching the dependency's declared shape and keeps its visited
state per type, so only cycles realised along existing matching slots are
rejected; in particular, for any two distinct types mutually dependent
through bare singleton dependencies, `build` with default options raises
`cyclic_dependency` whose path runs from the first occurrence of the
repeated type on the DFS stack to the duplicate inclusive,
`[T1, T2, T1]`. -/
theorem c3_cycle_rejection (a b : String) (h : a ≠ b) :
    (cfg_two_cycle a b).bind (fun r => build r default_build_options "" 20) =
      .error ⟨.cyclic_dependency [a, b, a] "", "", ""⟩ := by
  have hba : b ≠ a := Ne.symm h
  have h1 : (decide (a = b)) = false := decide_eq_false h
  have h2 : (decide (b = a)) = false := decide_eq_false hba
  simp only [cfg_two_cycle, register_single, empty_registry, has_single, build,
    expand_forwards, apply_decorators, validate_descriptors,
    check_missing_dependencies, check_missing_aux, check_deps_of,
    slot_indices, slot_matches, check_lifetime_rules, check_cycles,
    check_cycles_aux, dfs, dfs_indices, dfs_deps, get_state, set_state,
    cycle_detail, default_build_options, dep_on, h1, h2,
    List.range_succ, List.range_zero, List.filter_cons, List.filter_nil,
    List.filter_append, List.any_cons, List.any_nil, List.find?_cons,
    List.find?_nil, List.foldl_nil, List.foldl_cons, List.append_nil,
    List.cons_append, List.nil_append, List.map_cons, List.map_nil,
    List.isEmpty, List.dropWhile, List.dropLast, List.getElem?_nil,
    singleton_indices, eager_resolve, Except.bind, missing_hint,
    lifetime_to_string, eq_self_iff_true, decide_True, decide_False,
    Bool.false_and, Bool.and_false, Bool.true_and, Bool.and_true,
    Bool.or_false, Bool.false_or, Bool.not_true, Bool.not_false,
    if_true, if_false, ite_true, ite_false, List.find?,
    Bool.false_eq_true, Bool.true_eq_false, reduceIte, reduceCtorEq,
    List.length_cons, List.length_nil, List.getElem?_cons_zero,
    List.getElem?_cons_succ, Nat.reduceAdd, Nat.zero_add, Nat.add_zero,
    h, hba]

end Librtdi

namespace Librtdi

/-- Claim C4: forward transparency for singletons.  For any pointer
adjustment `cast`, building a registry with one non-keyed singleton
registration of `T` and `forward(I, T)` and then resolving `I` followed by
`T` yields `pI = Option.map cast pT` (both alias the one cached instance
`0`): the final state shows a single allocation (`next_obj = 1`), the
target factory invoked exactly once (invocation trace `[1, 0]`: the
forward descriptor at index 1, then the target at index 0), the target
cache entry owning its instance, and the forward descriptor cache entry
holding the cast pointer with no deleter (`owns = false`). -/
theorem c4_forward_transparency (cast : Nat → Nat) :
    c4_run cast =
      .ok (some (cast 0), some 0,
        ⟨[(0, ⟨some 0, true⟩), (1, ⟨some (cast 0), false⟩)], 1, [1, 0]⟩) := by
  rfl

end Librtdi


namespace Librtdi

/-- Claim C5, counterexample: resolving `IA` on the built `cfg_chain`
resolver (chain `IA → IB → missing IX`) produces a `not_found` whose
resolution-context chain is exactly the two enclosing descriptors
innermost-first — it does not begin with an entry for the unresolved type
`IX`, contradicting the claimed rendering
`"… (while resolving X -> B [impl: B] -> A [impl: A])"`. -/
theorem c5_refuted :
    c5_error.map di_error.resolution_context =
      some "IB [impl: BImpl] -> IA [impl: AImpl]" ∧
    c5_error.map di_error.resolution_context ≠
      some "IX -> IB [impl: BImpl] -> IA [impl: AImpl]" := by
  exact ⟨rfl, by decide⟩

/-- Claim C5, amended: when a factory propagates a container-kind error,
the resolver appends the tag `"name [impl: name]"` for the descriptor
whose factory threw (separator `" -> "`) and re-propagates the same
payload; the chain therefore lists only the enclosing descriptors
innermost-first, while the unresolved type appears solely in the message
head.  Concretely, the nested missing dependency of `cfg_chain` renders
as `"Component not found: IX [at ] (while resolving IB [impl: BImpl] ->
IA [impl: AImpl])"`; and in general `annotate_di` preserves the error
payload and appends exactly the chain tag. -/
theorem c5_resolution_chain :
    c5_error = some ⟨.not_found "IX" "" "" "",
      "IB [impl: BImpl] -> IA [impl: AImpl]", ""⟩ ∧
    c5_error.map di_error.what =
      some ("Component not found: IX [at ] (while resolving IB [impl: BImpl] -> IA [impl: AImpl])") ∧
    (∀ (d : descriptor) (e : di_error), (annotate_di d e).base = e.base ∧
      (annotate_di d e).resolution_context =
        (if e.resolution_context = "" then chain_tag d
         else e.resolution_context ++ " -> " ++ chain_tag d)) := by
  refine ⟨rfl, rfl, fun d e => ?_⟩
  unfold annotate_di di_error.append_resolution_context di_error.set_diagnostic_detail
  constructor
  · dsimp only
    split <;> split <;> rfl
  · dsimp only
    split <;> split <;> rfl

end Librtdi

namespace Librtdi

/-- Witness for `c3_cycle_rejection` at the concrete pair `IA`, `IB`. -/
theorem c3_cycle_rejection_witness :
    ("IA" : String) ≠ "IB" ∧
    (cfg_two_cycle "IA" "IB").bind (fun r => build r default_build_options "" 20) =
      .error ⟨.cyclic_dependency ["IA", "IB", "IA"] "", "", ""⟩ := by
  exact ⟨by decide, c3_cycle_rejection "IA" "IB" (by decide)⟩

end Librtdi

namespace Librtdi

/-- Lookup in an extended cache: the earlier entries win. -/
theorem find_singleton_append (l1 l2 : List (Nat × erased_ptr)) (i : Nat) :
    find_singleton (l1 ++ l2) i =
      (match find_singleton l1 i with
       | some v => some v
       | none => find_singleton l2 i) := by
  induction l1 with
  | nil => simp [find_singleton]
  | cons hd tl ih =>
    obtain ⟨k, v⟩ := hd
    by_cases hk : k = i
    · simp [find_singleton, hk]
    · simp [find_singleton, hk, ih]

/-- Every resolution step only appends to the ghost invocation trace. -/
theorem invoked_extends (descs : List descriptor) (fuel : Nat) :
    (∀ st j, ∃ ext, (resolve_singleton_by_index descs fuel st j).2.invoked = st.invoked ++ ext) ∧
    (∀ st j, ∃ ext, (resolve_transient_by_index descs fuel st j).2.invoked = st.invoked ++ ext) ∧
    (∀ st f, ∃ ext, (run_factory descs fuel st f).2.invoked = st.invoked ++ ext) ∧
    (∀ st ds, ∃ ext, (resolve_deps descs fuel st ds).2.invoked = st.invoked ++ ext) ∧
    (∀ st d, ∃ ext, (resolve_dep descs fuel st d).2.invoked = st.invoked ++ ext) ∧
    (∀ st l, ∃ ext, (get_coll descs fuel st l).2.invoked = st.invoked ++ ext) ∧
    (∀ st l, ∃ ext, (create_coll descs fuel st l).2.invoked = st.invoked ++ ext) := by
  induction fuel with
  | zero =>
    refine ⟨fun st j => ⟨[], ?_⟩, fun st j => ⟨[], ?_⟩, fun st f => ⟨[], ?_⟩,
      fun st ds => ⟨[], ?_⟩, fun st d => ⟨[], ?_⟩, fun st l => ⟨[], ?_⟩,
      fun st l => ⟨[], ?_⟩⟩ <;>
      simp [resolve_singleton_by_index, resolve_transient_by_index, run_factory,
        resolve_deps, resolve_dep, get_coll, create_coll]
  | succ n ih =>
    obtain ⟨ihS, ihT, ihF, ihDs, ihD, ihG, ihC⟩ := ih
    have hctor : ∀ st o, (run_ctor st o).2.invoked = st.invoked := by
      intro st o
      cases o <;> simp [run_ctor]
    have step2 : ∀ (st1 : resolver_state) (r1 : resolver_state) (ext1 : List Nat)
        (r2 : resolver_state) (ext2 : List Nat),
        r1.invoked = st1.invoked ++ ext1 → r2.invoked = r1.invoked ++ ext2 →
        ∃ ext, r2.invoked = st1.invoked ++ ext := by
      intro st1 r1 ext1 r2 ext2 h1 h2
      exact ⟨ext1 ++ ext2, by rw [h2, h1, List.append_assoc]⟩
    refine ⟨?_, ?_, ?_, ?_, ?_, ?_, ?_⟩
    · intro st j
      rw [resolve_singleton_by_index]
      split
      · exact ⟨[], by simp⟩
      · split
        · exact ⟨[], by simp⟩
        · dsimp only
          split <;> rename_i st2 heq <;>
            [skip; skip;
             (obtain ⟨ext, hext⟩ := ihF { st with invoked := st.invoked ++ [j] } _;
              rw [heq] at hext;
              exact ⟨[j] ++ ext, by simpa using hext⟩)] <;>
            (obtain ⟨ext, hext⟩ := ihF { st with invoked := st.invoked ++ [j] } _;
             rw [heq] at hext;
             exact ⟨[j] ++ ext, by simpa using hext⟩)
    · intro st j
      rw [resolve_transient_by_index]
      split
      · exact ⟨[], by simp⟩
      · split <;> rename_i st1 heq <;>
          (obtain ⟨ext, hext⟩ := ihF st _; rw [heq] at hext; exact ⟨ext, hext⟩)
    · intro st f
      cases f with
      | auto_wired deps outcome =>
        rw [run_factory]
        split <;> rename_i st1 heq
        · obtain ⟨ext, hext⟩ := ihDs st deps
          rw [heq] at hext
          exact ⟨ext, hext⟩
        · obtain ⟨ext, hext⟩ := ihDs st deps
          rw [heq] at hext
          exact step2 st st1 ext _ [] hext (by rw [hctor]; simp)
      | forward_singleton t cast =>
        rw [run_factory]
        split <;> rename_i st1 heq <;>
          (obtain ⟨ext, hext⟩ := ihS st t; rw [heq] at hext; exact ⟨ext, hext⟩)
      | forward_transient t cast =>
        rw [run_factory]
        split <;> rename_i st1 heq <;>
          (obtain ⟨ext, hext⟩ := ihT st t; rw [heq] at hext; exact ⟨ext, hext⟩)
      | forward_placeholder =>
        exact ⟨[], by simp [run_factory]⟩
      | decorated inner extra outcome =>
        rw [run_factory]
        split <;> rename_i st1 heq
        · obtain ⟨ext, hext⟩ := ihF st inner
          rw [heq] at hext
          exact ⟨ext, hext⟩
        · obtain ⟨ext, hext⟩ := ihF st inner
          rw [heq] at hext
          split <;> rename_i st2 heq2
          · obtain ⟨ext2, hext2⟩ := ihDs st1 extra
            rw [heq2] at hext2
            exact step2 st st1 ext _ ext2 hext hext2
          · obtain ⟨ext2, hext2⟩ := ihDs st1 extra
            rw [heq2] at hext2
            exact step2 st st1 ext _ (ext2 ++ []) hext
              (by rw [hctor, hext2]; simp)
    · intro st ds
      cases ds with
      | nil => exact ⟨[], by simp [resolve_deps]⟩
      | cons d rest =>
        rw [resolve_deps]
        split <;> rename_i st1 heq
        · obtain ⟨ext, hext⟩ := ihD st d
          rw [heq] at hext
          exact ⟨ext, hext⟩
        · obtain ⟨ext, hext⟩ := ihD st d
          rw [heq] at hext
          obtain ⟨ext2, hext2⟩ := ihDs st1 rest
          exact step2 st st1 ext _ ext2 hext hext2
    · intro st d
      rw [resolve_dep]
      split
      · split <;> rename_i st1 heq <;>
          (obtain ⟨ext, hext⟩ := ihC st _; rw [heq] at hext; exact ⟨ext, hext⟩)
      · split
        · split <;> rename_i st1 heq <;>
            (obtain ⟨ext, hext⟩ := ihG st _; rw [heq] at hext; exact ⟨ext, hext⟩)
        · split
          · split
            · exact ⟨[], by simp⟩
            · rename_i front rest heq
              split <;> rename_i st1 heq2
              · obtain ⟨ext, hext⟩ := ihT st front
                rw [heq2] at hext
                exact ⟨ext, hext⟩
              · obtain ⟨ext, hext⟩ := ihT st front
                rw [heq2] at hext
                split
                · exact ⟨ext, hext⟩
                · exact ⟨ext, hext⟩
          · split
            · exact ⟨[], by simp⟩
            · rename_i front rest heq
              split <;> rename_i st1 heq2
              · obtain ⟨ext, hext⟩ := ihS st front
                rw [heq2] at hext
                exact ⟨ext, hext⟩
              · obtain ⟨ext, hext⟩ := ihS st front
                rw [heq2] at hext
                split
                · exact ⟨ext, hext⟩
                · exact ⟨ext, hext⟩
    · intro st l
      cases l with
      | nil => exact ⟨[], by simp [get_coll]⟩
      | cons i rest =>
        rw [get_coll]
        split <;> rename_i st1 heq
        · obtain ⟨ext, hext⟩ := ihS st i
          rw [heq] at hext
          exact ⟨ext, hext⟩
        · obtain ⟨ext, hext⟩ := ihS st i
          rw [heq] at hext
          obtain ⟨ext2, hext2⟩ := ihG st1 rest
          split <;> rename_i st2 heq2 <;>
            (rw [heq2] at hext2; exact step2 st st1 ext _ ext2 hext hext2)
    · intro st l
      cases l with
      | nil => exact ⟨[], by simp [create_coll]⟩
      | cons i rest =>
        rw [create_coll]
        split <;> rename_i st1 heq
        · obtain ⟨ext, hext⟩ := ihT st i
          rw [heq] at hext
          exact ⟨ext, hext⟩
        · obtain ⟨ext, hext⟩ := ihT st i
          rw [heq] at hext
          obtain ⟨ext2, hext2⟩ := ihC st1 rest
          split <;> rename_i st2 heq2 <;>
            (rw [heq2] at hext2; exact step2 st st1 ext _ ext2 hext hext2)

/-- Getting an element by optional index implies membership. -/
theorem mem_of_getElem_opt {α : Type} :
    ∀ (l : List α) (n : Nat) (a : α), l[n]? = some a → a ∈ l
  | [], _, _, h => by simp at h
  | x :: xs, 0, a, h => by
    simp only [List.getElem?_cons_zero, Option.some.injEq] at h
    simp [h]
  | x :: xs, n + 1, a, h => by
    simp only [List.getElem?_cons_succ] at h
    exact List.mem_cons_of_mem x (mem_of_getElem_opt xs n a h)

/-- When `S` is closed under the direct-callee relation and `idx ∉ S`, no
resolution step started at an index in `S` (or on a factory whose callees
lie in `S`) can create a cache entry for `idx`: the only insertion point
is the success path of `resolve_singleton_by_index` on the index it was
called with, and every index reached stays in `S`. -/
theorem within_preserved (descs : List descriptor) (idx : Nat) (S : List Nat)
    (hclosed : callee_closed descs S = true)
    (hidx : idx ∉ S) (fuel : Nat) :
    (∀ st j, j ∈ S → find_singleton st.singletons idx = none →
      find_singleton (resolve_singleton_by_index descs fuel st j).2.singletons idx = none) ∧
    (∀ st j, j ∈ S → find_singleton st.singletons idx = none →
      find_singleton (resolve_transient_by_index descs fuel st j).2.singletons idx = none) ∧
    (∀ st f, factory_within descs S f = true → find_singleton st.singletons idx = none →
      find_singleton (run_factory descs fuel st f).2.singletons idx = none) ∧
    (∀ st ds, ds.all (dep_within descs S) = true → find_singleton st.singletons idx = none →
      find_singleton (resolve_deps descs fuel st ds).2.singletons idx = none) ∧
    (∀ st d, dep_within descs S d = true → find_singleton st.singletons idx = none →
      find_singleton (resolve_dep descs fuel st d).2.singletons idx = none) ∧
    (∀ st l, (∀ k ∈ l, k ∈ S) → find_singleton st.singletons idx = none →
      find_singleton (get_coll descs fuel st l).2.singletons idx = none) ∧
    (∀ st l, (∀ k ∈ l, k ∈ S) → find_singleton st.singletons idx = none →
      find_singleton (create_coll descs fuel st l).2.singletons idx = none) := by
  induction fuel with
  | zero =>
    refine ⟨fun st j _ h => ?_, fun st j _ h => ?_, fun st f _ h => ?_,
      fun st ds _ h => ?_, fun st d _ h => ?_, fun st l _ h => ?_,
      fun st l _ h => ?_⟩ <;>
      simpa [resolve_singleton_by_index, resolve_transient_by_index, run_factory,
        resolve_deps, resolve_dep, get_coll, create_coll] using h
  | succ n ih =>
    obtain ⟨ihS, ihT, ihF, ihDs, ihD, ihG, ihC⟩ := ih
    have hctor : ∀ st o, (run_ctor st o).2.singletons = st.singletons := by
      intro st o
      cases o <;> simp [run_ctor]
    have hfac : ∀ (j : Nat) (d : descriptor), j ∈ S → descs[j]? = some d →
        factory_within descs S d.factory = true := by
      intro j d hj hdesc
      have h1 := List.all_eq_true.mp hclosed j hj
      simpa [callees_within, hdesc] using h1
    refine ⟨?_, ?_, ?_, ?_, ?_, ?_, ?_⟩
    · intro st j hj h
      rw [resolve_singleton_by_index]
      split
      · exact h
      · split
        · exact h
        · dsimp only
          rename_i desc hdesc hx hcache
          have hsafe : factory_within descs S desc.factory = true := hfac j desc hj hdesc
          have h1 : find_singleton ({ st with invoked := st.invoked ++ [j] } :
              resolver_state).singletons idx = none := h
          have hjne : j ≠ idx := fun hc => hidx (hc ▸ hj)
          split <;> rename_i st2 heq
          · have := ihF _ _ hsafe h1
            rw [heq] at this
            exact this
          · have := ihF _ _ hsafe h1
            rw [heq] at this
            exact this
          · have h2 := ihF _ _ hsafe h1
            rw [heq] at h2
            dsimp only
            rw [find_singleton_append, h2]
            simp [find_singleton, hjne]
    · intro st j hj h
      rw [resolve_transient_by_index]
      split
      · exact h
      · rename_i desc hdesc
        have hsafe : factory_within descs S desc.factory = true := hfac j desc hj hdesc
        split <;> rename_i st1 heq <;>
          (have hh := ihF _ _ hsafe h; rw [heq] at hh; exact hh)
    · intro st f hsafe h
      cases f with
      | auto_wired deps outcome =>
        have hdeps : deps.all (dep_within descs S) = true := by
          simpa [factory_within] using hsafe
        rw [run_factory]
        split <;> rename_i st1 heq
        · have := ihDs _ _ hdeps h
          rw [heq] at this
          exact this
        · have := ihDs _ _ hdeps h
          rw [heq] at this
          rw [hctor]
          exact this
      | forward_singleton t cast =>
        have ht : t ∈ S := by
          simpa [factory_within, decide_eq_true_eq] using hsafe
        rw [run_factory]
        split <;> rename_i st1 heq <;>
          (have hh := ihS _ _ ht h; rw [heq] at hh; exact hh)
      | forward_transient t cast =>
        have ht : t ∈ S := by
          simpa [factory_within, decide_eq_true_eq] using hsafe
        rw [run_factory]
        split <;> rename_i st1 heq <;>
          (have hh := ihT _ _ ht h; rw [heq] at hh; exact hh)
      | forward_placeholder =>
        simpa [run_factory] using h
      | decorated inner extra outcome =>
        have hsplit : factory_within descs S inner = true ∧
            extra.all (dep_within descs S) = true := by
          simpa [factory_within, Bool.and_eq_true] using hsafe
        rw [run_factory]
        split <;> rename_i st1 heq
        · have := ihF _ _ hsplit.1 h
          rw [heq] at this
          exact this
        · have h1 := ihF _ _ hsplit.1 h
          rw [heq] at h1
          split <;> rename_i st2 heq2
          · have := ihDs _ _ hsplit.2 h1
            rw [heq2] at this
            exact this
          · have h2 := ihDs _ _ hsplit.2 h1
            rw [heq2] at h2
            rw [hctor]
            exact h2
    · intro st ds hall h
      cases ds with
      | nil => simpa [resolve_deps] using h
      | cons d rest =>
        have hd : dep_within descs S d = true := by
          have := List.all_eq_true.mp hall d (by simp)
          simpa using this
        have hrest : rest.all (dep_within descs S) = true := by
          rw [List.all_eq_true] at hall ⊢
          intro x hx
          exact hall x (by simp [hx])
        rw [resolve_deps]
        split <;> rename_i st1 heq
        · have := ihD _ _ hd h
          rw [heq] at this
          exact this
        · have h1 := ihD _ _ hd h
          rw [heq] at h1
          exact ihDs _ _ hrest h1
    · intro st d hd h
      rw [resolve_dep]
      split
      · rename_i hcond
        have hl : ∀ k ∈ slot_indices descs d.type "" .transient true, k ∈ S := by
          intro k hk
          have h5 := hd
          unfold dep_within at h5
          rw [if_pos hcond] at h5
          exact of_decide_eq_true (List.all_eq_true.mp h5 k hk)
        split <;> rename_i st1 heq <;>
          (have hh := ihC _ (slot_indices descs d.type "" .transient true) hl h;
           rw [heq] at hh; exact hh)
      · split
        · rename_i hct hcoll
          have hl : ∀ k ∈ slot_indices descs d.type "" .singleton true, k ∈ S := by
            intro k hk
            have h5 := hd
            unfold dep_within at h5
            rw [if_neg hct, if_pos hcoll] at h5
            exact of_decide_eq_true (List.all_eq_true.mp h5 k hk)
          split <;> rename_i st1 heq <;>
            (have hh := ihG _ _ hl h; rw [heq] at hh; exact hh)
        · split
          · rename_i hct hcoll htr
            split
            · exact h
            · rename_i front rest heq
              have hfr : front ∈ S := by
                have h5 := hd
                unfold dep_within at h5
                rw [if_neg hct, if_neg hcoll, if_pos htr, heq] at h5
                simpa using h5
              split <;> rename_i st1 heq2
              · have := ihT _ _ hfr h
                rw [heq2] at this
                exact this
              · have h1 := ihT _ _ hfr h
                rw [heq2] at h1
                split
                · exact h1
                · exact h1
          · rename_i hct hcoll htr
            split
            · exact h
            · rename_i front rest heq
              have hfr : front ∈ S := by
                have h5 := hd
                unfold dep_within at h5
                rw [if_neg hct, if_neg hcoll, if_neg htr, heq] at h5
                simpa using h5
              split <;> rename_i st1 heq2
              · have := ihS _ _ hfr h
                rw [heq2] at this
                exact this
              · have h1 := ihS _ _ hfr h
                rw [heq2] at h1
                split
                · exact h1
                · exact h1
    · intro st l hl h
      cases l with
      | nil => simpa [get_coll] using h
      | cons i rest =>
        have hi : i ∈ S := hl i (by simp)
        have hrest : ∀ k ∈ rest, k ∈ S := fun k hk => hl k (by simp [hk])
        rw [get_coll]
        split <;> rename_i st1 heq
        · have := ihS _ _ hi h
          rw [heq] at this
          exact this
        · have h1 := ihS _ _ hi h
          rw [heq] at h1
          have h2 := ihG _ _ hrest h1
          split <;> rename_i st2 heq2 <;> (rw [heq2] at h2; exact h2)
    · intro st l hl h
      cases l with
      | nil => simpa [create_coll] using h
      | cons i rest =>
        have hi : i ∈ S := hl i (by simp)
        have hrest : ∀ k ∈ rest, k ∈ S := fun k hk => hl k (by simp [hk])
        rw [create_coll]
        split <;> rename_i st1 heq
        · have := ihT _ _ hi h
          rw [heq] at this
          exact this
        · have h1 := ihT _ _ hi h
          rw [heq] at h1
          have h2 := ihC _ rest hrest h1
          split <;> rename_i st2 heq2 <;> (rw [heq2] at h2; exact h2)

/-- Claim C2: singleton identity.  Fix a descriptor index `idx` together
with a set `S` of indices that is closed under the direct-callee relation,
contains every direct callee of `idx` and does not contain `idx` itself —
i.e. `idx` does not lie on a dependency cycle, which is the regime every
validated build guarantees; descriptors outside `S` (in particular other
components whose factories depend on `idx`) are unrestricted.  If a
singleton resolution of `idx` succeeds with raw pointer `p`, then any
later resolution of the same descriptor returns the same pointer `p` and
leaves the state — including the ghost invocation trace — untouched,
i.e. the factory is not invoked again; when the first call started from a
cache miss, it invoked the factory (the descriptor index is appended to
the invocation trace) and cached the produced erased pointer under the
descriptor index; and the `get` path over a slot whose front is that
descriptor returns the same cached pointer. -/
theorem c2_singleton_identity (descs : List descriptor) (fuel fuel2 : Nat)
    (st st' : resolver_state) (idx : Nat) (p : Option Nat) (S : List Nat)
    (hclosed : callee_closed descs S = true)
    (hstart : callees_within descs S idx = true)
    (hnotin : idx ∉ S)
    (h : resolve_singleton_by_index descs fuel st idx = (.ok p, st')) :
    resolve_singleton_by_index descs (fuel2 + 1) st' idx = (.ok p, st') ∧
    (find_singleton st.singletons idx = none →
      ∃ rest, st'.invoked = st.invoked ++ idx :: rest) ∧
    (∀ t key, (slot_indices descs t key .singleton false).head? = some idx →
      get_singleton_impl descs (fuel2 + 1) st' t key = (.ok p, st')) := by
  have hmain : resolve_singleton_by_index descs (fuel2 + 1) st' idx = (.ok p, st') ∧
      (find_singleton st.singletons idx = none →
        ∃ rest, st'.invoked = st.invoked ++ idx :: rest) := by
    cases fuel with
    | zero =>
      exfalso
      rw [resolve_singleton_by_index] at h
      simp at h
    | succ n =>
      rw [resolve_singleton_by_index] at h
      cases hdesc : descs[idx]? with
      | none =>
        rw [hdesc] at h
        exact absurd h (by simp)
      | some desc =>
        rw [hdesc] at h
        cases hcache : find_singleton st.singletons idx with
        | some ep =>
          rw [hcache] at h
          dsimp only at h
          have hp2 : p = ep.ptr := by
            have := (Prod.mk.injEq _ _ _ _).mp h
            have := this.1
            exact (Except.ok.inj this).symm
          have hst : st = st' := by
            have := (Prod.mk.injEq _ _ _ _).mp h
            exact this.2
          constructor
          · rw [resolve_singleton_by_index, hdesc]
            subst hst
            rw [hcache]
            dsimp only
            rw [hp2]
          · intro hnone
            exact absurd hnone (by simp)
        | none =>
          rw [hcache] at h
          dsimp only at h
          rcases hrun : run_factory descs n
              { st with invoked := st.invoked ++ [idx] } desc.factory with ⟨r, st2⟩
          rw [hrun] at h
          cases r with
          | error fe =>
            exfalso
            cases fe <;> simp at h
          | ok inst =>
            dsimp only at h
            have hinj := (Prod.mk.injEq _ _ _ _).mp h
            have hp : inst.ptr = p := Except.ok.inj hinj.1
            have hst : ({ st2 with singletons := st2.singletons ++ [(idx, inst)] } :
                resolver_state) = st' := hinj.2
            have hsafe : factory_within descs S desc.factory = true := by
              simpa [callees_within, hdesc] using hstart
            have habs : find_singleton st2.singletons idx = none := by
              have h1 : find_singleton ({ st with invoked := st.invoked ++ [idx] } :
                  resolver_state).singletons idx = none := hcache
              have := (within_preserved descs idx S hclosed hnotin n).2.2.1
                { st with invoked := st.invoked ++ [idx] } desc.factory hsafe h1
              rw [hrun] at this
              exact this
            have hfind : find_singleton st'.singletons idx = some inst := by
              rw [← hst]
              dsimp only
              rw [find_singleton_append, habs]
              simp [find_singleton]
            constructor
            · rw [resolve_singleton_by_index, hdesc, hfind]
              dsimp only
              rw [hp]
            · intro _
              obtain ⟨ext, hext⟩ := (invoked_extends descs n).2.2.1
                { st with invoked := st.invoked ++ [idx] } desc.factory
              rw [hrun] at hext
              refine ⟨ext, ?_⟩
              rw [← hst]
              dsimp only
              rw [hext]
              simp
  refine ⟨hmain.1, hmain.2, ?_⟩
  intro t key hhead
  rw [get_singleton_impl]
  cases hslot : slot_indices descs t key .singleton false with
  | nil => rw [hslot] at hhead; simp at hhead
  | cons front rest =>
    rw [hslot] at hhead
    simp only [List.head?_cons, Option.some.injEq] at hhead
    subst hhead
    exact hmain.1

/-- Witness for `c2_singleton_identity`: resolving the middle singleton
`M` (index 1) of the chain `L ← M ← S`, in a vector where another
descriptor's factory depends on index 1, with the callee-closed set
`[0]`. -/
theorem c2_singleton_identity_witness :
    callee_closed chain3_descs [0] = true ∧
    callees_within chain3_descs [0] 1 = true ∧
    (1 : Nat) ∉ ([0] : List Nat) ∧
    (resolve_singleton_by_index chain3_descs 5
        ⟨[(0, ⟨some 0, true⟩), (1, ⟨some 1, true⟩)], 2, [1, 0]⟩ 1 =
      (.ok (some 1), ⟨[(0, ⟨some 0, true⟩), (1, ⟨some 1, true⟩)], 2, [1, 0]⟩) ∧
    (find_singleton initial_state.singletons 1 = none →
      ∃ rest, (⟨[(0, ⟨some 0, true⟩), (1, ⟨some 1, true⟩)], 2, [1, 0]⟩ :
          resolver_state).invoked = initial_state.invoked ++ 1 :: rest) ∧
    (∀ t key, (slot_indices chain3_descs t key .singleton false).head? = some 1 →
      get_singleton_impl chain3_descs 5
          ⟨[(0, ⟨some 0, true⟩), (1, ⟨some 1, true⟩)], 2, [1, 0]⟩ t key =
        (.ok (some 1), ⟨[(0, ⟨some 0, true⟩), (1, ⟨some 1, true⟩)], 2, [1, 0]⟩))) :=
  ⟨by decide, by decide, by decide,
   c2_singleton_identity chain3_descs 8 4 initial_state
     ⟨[(0, ⟨some 0, true⟩), (1, ⟨some 1, true⟩)], 2, [1, 0]⟩ 1 (some 1) [0]
     (by decide) (by decide) (by decide) (by rfl)⟩

/-- Claim C6, counterexample: a failing singleton resolution does not in
general leave the whole cache unchanged.  Resolving `IA` on the built
`cfg_failing_singleton` resolver fails (its constructor throws after its
dependency resolved), and the failed call leaves the cache without an
entry for `IA` (index 1) but with a new entry for the successfully
resolved dependency `IB` (index 0) — so the cache state is changed by the
failed call. -/
theorem c6_refuted :
    (match cfg_failing_singleton.bind (fun r => build r no_eager_options "" 50) with
     | .ok b =>
       match get_singleton_impl b.descriptors 50 b.state "IA" "" with
       | (.error _, st1) =>
         decide (st1.singletons ≠ initial_state.singletons)
           && decide (find_singleton st1.singletons 1 = none)
           && decide (find_singleton st1.singletons 0 ≠ none)
       | (.ok _, _) => false
     | .error _ => false) = true := by
  rfl

/-- Claim C6, amended: for every singleton descriptor whose index does
not lie on a dependency cycle (witnessed by a callee-closed set `S` of
indices containing every direct callee of `idx` but not `idx` itself —
descriptors outside `S`, in particular other components that depend on
`idx`, are unrestricted), if the factory throws during a resolution that
started from a cache miss, the error propagates to the caller, the
resolution leaves the singleton cache without any entry for that
descriptor (entries cached for other descriptors resolved inside the
failed factory may remain), and a subsequent resolution of the same
descriptor invokes the factory again (the descriptor index is appended to
the invocation trace once more). -/
theorem c6_failure_atomicity (descs : List descriptor) (fuel fuel2 : Nat)
    (st st' : resolver_state) (idx : Nat) (e : di_error) (S : List Nat)
    (hclosed : callee_closed descs S = true)
    (hstart : callees_within descs S idx = true)
    (hnotin : idx ∉ S)
    (hidx : idx < descs.length)
    (hmiss : find_singleton st.singletons idx = none)
    (herr : resolve_singleton_by_index descs fuel st idx = (.error e, st')) :
    find_singleton st'.singletons idx = none ∧
    (∃ rest, (resolve_singleton_by_index descs (fuel2 + 1) st' idx).2.invoked =
      st'.invoked ++ idx :: rest) := by
  have hnone : find_singleton st'.singletons idx = none := by
    cases fuel with
    | zero =>
      rw [resolve_singleton_by_index] at herr
      have := (Prod.mk.injEq _ _ _ _).mp herr
      rw [← this.2]
      exact hmiss
    | succ n =>
      rw [resolve_singleton_by_index] at herr
      cases hdesc : descs[idx]? with
      | none =>
        rw [hdesc] at herr
        have := (Prod.mk.injEq _ _ _ _).mp herr
        rw [← this.2]
        exact hmiss
      | some desc =>
        rw [hdesc, hmiss] at herr
        dsimp only at herr
        rcases hrun : run_factory descs n
            { st with invoked := st.invoked ++ [idx] } desc.factory with ⟨r, st2⟩
        rw [hrun] at herr
        have hsafe : factory_within descs S desc.factory = true := by
          simpa [callees_within, hdesc] using hstart
        have habs : find_singleton st2.singletons idx = none := by
          have h1 : find_singleton ({ st with invoked := st.invoked ++ [idx] } :
              resolver_state).singletons idx = none := hmiss
          have := (within_preserved descs idx S hclosed hnotin n).2.2.1
            { st with invoked := st.invoked ++ [idx] } desc.factory hsafe h1
          rw [hrun] at this
          exact this
        cases r with
        | error fe =>
          cases fe with
          | di e2 =>
            dsimp only at herr
            have := (Prod.mk.injEq _ _ _ _).mp herr
            rw [← this.2]
            exact habs
          | std msg =>
            dsimp only at herr
            have := (Prod.mk.injEq _ _ _ _).mp herr
            rw [← this.2]
            exact habs
        | ok inst =>
          dsimp only at herr
          exact absurd ((Prod.mk.injEq _ _ _ _).mp herr).1 (by simp)
  refine ⟨hnone, ?_⟩
  have hdesc2 : descs[idx]? = some descs[idx] := List.getElem?_eq_getElem hidx
  rw [resolve_singleton_by_index, hdesc2, hnone]
  dsimp only
  obtain ⟨ext, hext⟩ := (invoked_extends descs fuel2).2.2.1
    { st' with invoked := st'.invoked ++ [idx] } (descs[idx]).factory
  refine ⟨ext, ?_⟩
  rcases hrun2 : run_factory descs fuel2
      { st' with invoked := st'.invoked ++ [idx] } (descs[idx]).factory with ⟨r2, st3⟩
  rw [hrun2] at hext
  cases r2 with
  | error fe =>
    cases fe <;> (dsimp only; dsimp only at hext; rw [hext]; simp)
  | ok inst =>
    dsimp only
    dsimp only at hext
    rw [hext]
    simp

/-- Witness for `c6_failure_atomicity`: the throwing singleton `F`
(index 0) of `thrower_descs`, in a vector where another descriptor's
factory depends on index 0, with the empty callee-closed set. -/
theorem c6_failure_atomicity_witness :
    callee_closed thrower_descs [] = true ∧
    callees_within thrower_descs [] 0 = true ∧
    (0 : Nat) ∉ ([] : List Nat) ∧
    0 < thrower_descs.length ∧
    find_singleton initial_state.singletons 0 = none ∧
    (find_singleton (⟨[], 0, [0]⟩ : resolver_state).singletons 0 = none ∧
    (∃ rest, (resolve_singleton_by_index thrower_descs (3 + 1)
        ⟨[], 0, [0]⟩ 0).2.invoked =
      (⟨[], 0, [0]⟩ : resolver_state).invoked ++ 0 :: rest)) :=
  ⟨rfl, by decide, by decide, by decide, rfl,
   c6_failure_atomicity thrower_descs 10 3 initial_state
     ⟨[], 0, [0]⟩ 0
     ⟨.resolution_error "F" "boom" "", "", ""⟩ []
     rfl (by decide) (by decide) (by decide) rfl (by rfl)⟩

/-- The catch-block enrichment does not change the exception payload. -/
theorem annotate_di_base (d : descriptor) (e : di_error) :
    (annotate_di d e).base = e.base := by
  unfold annotate_di di_error.append_resolution_context di_error.set_diagnostic_detail
  dsimp only
  split <;> split <;> rfl

/-- Every error produced by the resolution machinery is of a runtime kind:
never a `lifetime_mismatch`, `cyclic_dependency` or
`duplicate_registration` (those arise only in validation and
registration). -/
theorem runtime_kinds (descs : List descriptor) (fuel : Nat) :
    (∀ st j e st', resolve_singleton_by_index descs fuel st j = (.error e, st') →
      runtime_error_kind e.base = true) ∧
    (∀ st j e st', resolve_transient_by_index descs fuel st j = (.error e, st') →
      runtime_error_kind e.base = true) ∧
    (∀ st f e st', run_factory descs fuel st f = (.error (.di e), st') →
      runtime_error_kind e.base = true) ∧
    (∀ st ds e st', resolve_deps descs fuel st ds = (.error e, st') →
      runtime_error_kind e.base = true) ∧
    (∀ st d e st', resolve_dep descs fuel st d = (.error e, st') →
      runtime_error_kind e.base = true) ∧
    (∀ st l e st', get_coll descs fuel st l = (.error e, st') →
      runtime_error_kind e.base = true) ∧
    (∀ st l e st', create_coll descs fuel st l = (.error e, st') →
      runtime_error_kind e.base = true) := by
  have hfuel : runtime_error_kind fuel_exhausted.base = true := rfl
  have hwrap : ∀ (d : descriptor) msg, runtime_error_kind (wrap_std d msg).base = true := by
    intro d msg
    rfl
  have hoob : runtime_error_kind (mk_di_error "descriptor index out of range" "").base = true := rfl
  induction fuel with
  | zero =>
    refine ⟨?_, ?_, ?_, ?_, ?_, ?_, ?_⟩
    · intro st x e st' heq
      rw [resolve_singleton_by_index] at heq
      have he := Except.error.inj ((Prod.mk.injEq _ _ _ _).mp heq).1
      rw [← he]
      exact hfuel
    · intro st x e st' heq
      rw [resolve_transient_by_index] at heq
      have he := Except.error.inj ((Prod.mk.injEq _ _ _ _).mp heq).1
      rw [← he]
      exact hfuel
    · intro st x e st' heq
      rw [run_factory] at heq
      have he := factory_err.di.inj (Except.error.inj ((Prod.mk.injEq _ _ _ _).mp heq).1)
      rw [← he]
      exact hfuel
    · intro st x e st' heq
      rw [resolve_deps] at heq
      have he := Except.error.inj ((Prod.mk.injEq _ _ _ _).mp heq).1
      rw [← he]
      exact hfuel
    · intro st x e st' heq
      rw [resolve_dep] at heq
      have he := Except.error.inj ((Prod.mk.injEq _ _ _ _).mp heq).1
      rw [← he]
      exact hfuel
    · intro st x e st' heq
      rw [get_coll] at heq
      have he := Except.error.inj ((Prod.mk.injEq _ _ _ _).mp heq).1
      rw [← he]
      exact hfuel
    · intro st x e st' heq
      rw [create_coll] at heq
      have he := Except.error.inj ((Prod.mk.injEq _ _ _ _).mp heq).1
      rw [← he]
      exact hfuel
  | succ n ih =>
    obtain ⟨ihS, ihT, ihF, ihDs, ihD, ihG, ihC⟩ := ih
    have hS : ∀ st j e st', resolve_singleton_by_index descs (n + 1) st j = (.error e, st') →
        runtime_error_kind e.base = true := by
      intro st j e st' heq
      rw [resolve_singleton_by_index] at heq
      split at heq
      · have he := Except.error.inj ((Prod.mk.injEq _ _ _ _).mp heq).1
        rw [← he]
        exact hoob
      · split at heq
        · exact absurd ((Prod.mk.injEq _ _ _ _).mp heq).1 (by simp)
        · dsimp only at heq
          split at heq
          · rename_i e2 st2 hrun
            have he := Except.error.inj ((Prod.mk.injEq _ _ _ _).mp heq).1
            rw [← he, annotate_di_base]
            exact ihF _ _ _ _ hrun
          · rename_i msg st2 hrun
            have he := Except.error.inj ((Prod.mk.injEq _ _ _ _).mp heq).1
            rw [← he]
            exact hwrap _ _
          · exact absurd ((Prod.mk.injEq _ _ _ _).mp heq).1 (by simp)
    have hT : ∀ st j e st', resolve_transient_by_index descs (n + 1) st j = (.error e, st') →
        runtime_error_kind e.base = true := by
      intro st j e st' heq
      rw [resolve_transient_by_index] at heq
      split at heq
      · have he := Except.error.inj ((Prod.mk.injEq _ _ _ _).mp heq).1
        rw [← he]
        exact hoob
      · split at heq
        · rename_i e2 st2 hrun
          have he := Except.error.inj ((Prod.mk.injEq _ _ _ _).mp heq).1
          rw [← he, annotate_di_base]
          exact ihF _ _ _ _ hrun
        · rename_i msg st2 hrun
          have he := Except.error.inj ((Prod.mk.injEq _ _ _ _).mp heq).1
          rw [← he]
          exact hwrap _ _
        · exact absurd ((Prod.mk.injEq _ _ _ _).mp heq).1 (by simp)
    have hctor : ∀ st o e st', run_ctor st o = (.error (.di e), st') →
        runtime_error_kind e.base = true := by
      intro st o e st' heq
      cases o with
      | ok => exact absurd ((Prod.mk.injEq _ _ _ _).mp heq).1 (by simp [run_ctor])
      | throw_std msg =>
        have := ((Prod.mk.injEq _ _ _ _).mp heq).1
        simp [run_ctor] at this
      | throw_di msg =>
        have := ((Prod.mk.injEq _ _ _ _).mp heq).1
        simp only [run_ctor] at this
        have he2 := factory_err.di.inj (Except.error.inj this)
        rw [← he2]
        rfl
    have hF : ∀ st f e st', run_factory descs (n + 1) st f = (.error (.di e), st') →
        runtime_error_kind e.base = true := by
      intro st f e st' heq
      cases f with
      | auto_wired deps outcome =>
        rw [run_factory] at heq
        split at heq
        · rename_i e2 st1 hdeps
          have he := factory_err.di.inj (Except.error.inj ((Prod.mk.injEq _ _ _ _).mp heq).1)
          rw [← he]
          exact ihDs _ _ _ _ hdeps
        · exact hctor _ _ _ _ heq
      | forward_singleton t cast =>
        rw [run_factory] at heq
        split at heq
        · rename_i e2 st1 hs
          have he := factory_err.di.inj (Except.error.inj ((Prod.mk.injEq _ _ _ _).mp heq).1)
          rw [← he]
          exact ihS _ _ _ _ hs
        · exact absurd ((Prod.mk.injEq _ _ _ _).mp heq).1 (by simp)
      | forward_transient t cast =>
        rw [run_factory] at heq
        split at heq
        · rename_i e2 st1 ht
          have he := factory_err.di.inj (Except.error.inj ((Prod.mk.injEq _ _ _ _).mp heq).1)
          rw [← he]
          exact ihT _ _ _ _ ht
        · exact absurd ((Prod.mk.injEq _ _ _ _).mp heq).1 (by simp)
      | forward_placeholder =>
        rw [run_factory] at heq
        exact absurd ((Prod.mk.injEq _ _ _ _).mp heq).1 (by simp)
      | decorated inner extra outcome =>
        rw [run_factory] at heq
        split at heq
        · rename_i fe st1 hinner
          have he := Except.error.inj ((Prod.mk.injEq _ _ _ _).mp heq).1
          rw [he] at hinner
          exact ihF _ _ _ _ hinner
        · split at heq
          · rename_i e2 st2 hextra
            have he := factory_err.di.inj (Except.error.inj ((Prod.mk.injEq _ _ _ _).mp heq).1)
            rw [← he]
            exact ihDs _ _ _ _ hextra
          · exact hctor _ _ _ _ heq
    have hDep : ∀ st d e st', resolve_dep descs (n + 1) st d = (.error e, st') →
        runtime_error_kind e.base = true := by
      intro st d e st' heq
      rw [resolve_dep] at heq
      split at heq
      · split at heq
        · rename_i e2 st1 hc
          have he := Except.error.inj ((Prod.mk.injEq _ _ _ _).mp heq).1
          rw [← he]
          exact ihC _ _ _ _ hc
        · exact absurd ((Prod.mk.injEq _ _ _ _).mp heq).1 (by simp)
      · split at heq
        · split at heq
          · rename_i e2 st1 hg
            have he := Except.error.inj ((Prod.mk.injEq _ _ _ _).mp heq).1
            rw [← he]
            exact ihG _ _ _ _ hg
          · exact absurd ((Prod.mk.injEq _ _ _ _).mp heq).1 (by simp)
        · split at heq
          · split at heq
            · have he := Except.error.inj ((Prod.mk.injEq _ _ _ _).mp heq).1
              rw [← he]
              rfl
            · split at heq
              · rename_i e2 st1 ht
                have he := Except.error.inj ((Prod.mk.injEq _ _ _ _).mp heq).1
                rw [← he]
                exact ihT _ _ _ _ ht
              · split at heq
                · have he := Except.error.inj ((Prod.mk.injEq _ _ _ _).mp heq).1
                  rw [← he]
                  rfl
                · exact absurd ((Prod.mk.injEq _ _ _ _).mp heq).1 (by simp)
          · split at heq
            · have he := Except.error.inj ((Prod.mk.injEq _ _ _ _).mp heq).1
              rw [← he]
              rfl
            · split at heq
              · rename_i e2 st1 hsng
                have he := Except.error.inj ((Prod.mk.injEq _ _ _ _).mp heq).1
                rw [← he]
                exact ihS _ _ _ _ hsng
              · split at heq
                · have he := Except.error.inj ((Prod.mk.injEq _ _ _ _).mp heq).1
                  rw [← he]
                  rfl
                · exact absurd ((Prod.mk.injEq _ _ _ _).mp heq).1 (by simp)
    have hDeps : ∀ st ds e st', resolve_deps descs (n + 1) st ds = (.error e, st') →
        runtime_error_kind e.base = true := by
      intro st ds e st' heq
      cases ds with
      | nil =>
        rw [resolve_deps] at heq
        exact absurd ((Prod.mk.injEq _ _ _ _).mp heq).1 (by simp)
      | cons d rest =>
        rw [resolve_deps] at heq
        split at heq
        · rename_i e2 st1 hd
          have he := Except.error.inj ((Prod.mk.injEq _ _ _ _).mp heq).1
          rw [← he]
          exact ihD _ _ _ _ hd
        · exact ihDs _ _ _ _ heq
    have hG : ∀ st l e st', get_coll descs (n + 1) st l = (.error e, st') →
        runtime_error_kind e.base = true := by
      intro st l e st' heq
      cases l with
      | nil =>
        rw [get_coll] at heq
        exact absurd ((Prod.mk.injEq _ _ _ _).mp heq).1 (by simp)
      | cons i rest =>
        rw [get_coll] at heq
        split at heq
        · rename_i e2 st1 hs
          have he := Except.error.inj ((Prod.mk.injEq _ _ _ _).mp heq).1
          rw [← he]
          exact ihS _ _ _ _ hs
        · split at heq
          · rename_i e2 st2 hrest
            have he := Except.error.inj ((Prod.mk.injEq _ _ _ _).mp heq).1
            rw [← he]
            exact ihG _ _ _ _ hrest
          · exact absurd ((Prod.mk.injEq _ _ _ _).mp heq).1 (by simp)
    have hC : ∀ st l e st', create_coll descs (n + 1) st l = (.error e, st') →
        runtime_error_kind e.base = true := by
      intro st l e st' heq
      cases l with
      | nil =>
        rw [create_coll] at heq
        exact absurd ((Prod.mk.injEq _ _ _ _).mp heq).1 (by simp)
      | cons i rest =>
        rw [create_coll] at heq
        split at heq
        · rename_i e2 st1 ht
          have he := Except.error.inj ((Prod.mk.injEq _ _ _ _).mp heq).1
          rw [← he]
          exact ihT _ _ _ _ ht
        · split at heq
          · rename_i e2 st2 hrest
            have he := Except.error.inj ((Prod.mk.injEq _ _ _ _).mp heq).1
            rw [← he]
            exact ihC _ _ _ _ hrest
          · exact absurd ((Prod.mk.injEq _ _ _ _).mp heq).1 (by simp)
    exact ⟨hS, hT, hF, hDeps, hDep, hG, hC⟩

/-- Cycle detection only raises `cyclic_dependency` (or the fuel artifact,
a generic `di_error`): never `lifetime_mismatch` or `not_found`. -/
theorem dfs_kinds (descs : List descriptor) (loc : String) (fuel : Nat) :
    (∀ states path node c t e, dfs descs loc fuel states path node c t = .error e →
      is_lifetime_mismatch e.base = false ∧ is_not_found e.base = false) ∧
    (∀ states path l e, dfs_indices descs loc fuel states path l = .error e →
      is_lifetime_mismatch e.base = false ∧ is_not_found e.base = false) ∧
    (∀ states path deps e, dfs_deps descs loc fuel states path deps = .error e →
      is_lifetime_mismatch e.base = false ∧ is_not_found e.base = false) := by
  induction fuel with
  | zero =>
    refine ⟨?_, ?_, ?_⟩
    · intro states path node c t e heq
      rw [dfs] at heq
      rw [← Except.error.inj heq]
      exact ⟨rfl, rfl⟩
    · intro states path l e heq
      rw [dfs_indices] at heq
      rw [← Except.error.inj heq]
      exact ⟨rfl, rfl⟩
    · intro states path deps e heq
      rw [dfs_deps] at heq
      rw [← Except.error.inj heq]
      exact ⟨rfl, rfl⟩
  | succ n ih =>
    obtain ⟨ihN, ihI, ihD⟩ := ih
    refine ⟨?_, ?_, ?_⟩
    · intro states path node c t e heq
      rw [dfs] at heq
      split at heq
      · exact absurd heq (by simp)
      · rw [← Except.error.inj heq]
        exact ⟨rfl, rfl⟩
      · dsimp only at heq
        split at heq
        · rename_i e2 hrec
          rw [← Except.error.inj heq]
          exact ihI _ _ _ _ hrec
        · exact absurd heq (by simp)
    · intro states path l e heq
      cases l with
      | nil =>
        rw [dfs_indices] at heq
        exact absurd heq (by simp)
      | cons i rest =>
        rw [dfs_indices] at heq
        split at heq
        · exact ihI _ _ _ _ heq
        · split at heq
          · rename_i e2 hrec
            rw [← Except.error.inj heq]
            exact ihD _ _ _ _ hrec
          · exact ihI _ _ _ _ heq
    · intro states path deps e heq
      cases deps with
      | nil =>
        rw [dfs_deps] at heq
        exact absurd heq (by simp)
      | cons dep rest =>
        rw [dfs_deps] at heq
        split at heq
        · rename_i e2 hrec
          rw [← Except.error.inj heq]
          exact ihN _ _ _ _ _ _ hrec
        · exact ihD _ _ _ _ heq

/-- Corollary for the root loop of cycle detection. -/
theorem check_cycles_aux_kind (descs : List descriptor) (loc : String) (fuel : Nat) :
    ∀ l states e, check_cycles_aux descs loc fuel states l = .error e →
      is_lifetime_mismatch e.base = false ∧ is_not_found e.base = false := by
  intro l
  induction l with
  | nil =>
    intro states e heq
    rw [check_cycles_aux] at heq
    exact absurd heq (by simp)
  | cons d rest ihl =>
    intro states e heq
    rw [check_cycles_aux] at heq
    split at heq
    · split at heq
      · rename_i e2 hrec
        rw [← Except.error.inj heq]
        exact (dfs_kinds descs loc fuel).1 _ _ _ _ _ _ hrec
      · exact ihl _ _ heq
    · exact ihl _ _ heq

/-- A dependency skipped as an allowed empty collection is not missing. -/
theorem dep_missing_skip (descs : List descriptor) (options : build_options)
    (dep : dependency_info)
    (h : (dep.is_collection && options.allow_empty_collections) = true) :
    dep_missing descs options dep = false := by
  unfold dep_missing
  rw [h]
  rfl

/-- For a dependency that is not skipped, missing-ness is exactly the
emptiness of its slot. -/
theorem dep_missing_eq (descs : List descriptor) (options : build_options)
    (dep : dependency_info)
    (h : (dep.is_collection && options.allow_empty_collections) = false) :
    dep_missing descs options dep =
      (slot_indices descs dep.type ""
        (if dep.is_transient = true then lifetime_kind.transient
         else lifetime_kind.singleton) dep.is_collection).isEmpty := by
  unfold dep_missing
  rw [h]
  simp

/-- The dependency scan of one descriptor succeeds exactly when none of
its dependencies is missing, and any error it raises is a `not_found`. -/
theorem check_deps_of_char (descs : List descriptor) (options : build_options)
    (loc : String) (d : descriptor) :
    ∀ deps, (check_deps_of descs options loc d deps = .ok () ↔
      deps.any (dep_missing descs options) = false) ∧
      (∀ e, check_deps_of descs options loc d deps = .error e →
        is_not_found e.base = true) := by
  intro deps
  induction deps with
  | nil =>
    constructor
    · simp [check_deps_of]
    · intro e heq
      rw [check_deps_of] at heq
      exact absurd heq (by simp)
  | cons dep rest ihd =>
    by_cases hskip : (dep.is_collection && options.allow_empty_collections) = true
    · constructor
      · rw [check_deps_of, if_pos hskip, ihd.1]
        simp [List.any_cons, dep_missing_skip descs options dep hskip]
      · intro e heq
        rw [check_deps_of, if_pos hskip] at heq
        exact ihd.2 e heq
    · have hskip2 : (dep.is_collection && options.allow_empty_collections) = false := by
        revert hskip
        cases (dep.is_collection && options.allow_empty_collections) <;> simp
      constructor
      · rw [check_deps_of, if_neg hskip]
        dsimp only
        rw [List.any_cons]
        split
        · rename_i htr
          have hdm : dep_missing descs options dep =
              (slot_indices descs dep.type "" lifetime_kind.transient
                dep.is_collection).isEmpty := by
            unfold dep_missing
            rw [hskip2, if_pos htr]
            simp
          cases hempty : (slot_indices descs dep.type "" lifetime_kind.transient
              dep.is_collection).isEmpty
          · simp [hempty, hdm, ihd.1]
          · simp [hempty, hdm]
        · rename_i htr
          have hdm : dep_missing descs options dep =
              (slot_indices descs dep.type "" lifetime_kind.singleton
                dep.is_collection).isEmpty := by
            unfold dep_missing
            rw [hskip2, if_neg htr]
            simp
          cases hempty : (slot_indices descs dep.type "" lifetime_kind.singleton
              dep.is_collection).isEmpty
          · simp [hempty, hdm, ihd.1]
          · simp [hempty, hdm]
      · intro e heq
        rw [check_deps_of, if_neg hskip] at heq
        dsimp only at heq
        split at heq <;> split at heq
        all_goals
          first
          | (rw [← Except.error.inj heq]; rfl)
          | exact ihd.2 e heq

/-- The outer missing-dependency loop succeeds exactly when no descriptor
declares a missing dependency, and any error it raises is a `not_found`. -/
theorem check_missing_aux_char (descs : List descriptor)
    (options : build_options) (loc : String) :
    ∀ l, (check_missing_aux descs options loc l = .ok () ↔
      l.any (fun d => d.dependencies.any (dep_missing descs options)) = false) ∧
      (∀ e, check_missing_aux descs options loc l = .error e →
        is_not_found e.base = true) := by
  intro l
  induction l with
  | nil =>
    constructor
    · simp [check_missing_aux]
    · intro e heq
      rw [check_missing_aux] at heq
      exact absurd heq (by simp)
  | cons d rest ihl =>
    constructor
    · rw [check_missing_aux]
      cases hd : check_deps_of descs options loc d d.dependencies with
      | error e =>
        constructor
        · intro hcontra
          exact absurd hcontra (by simp)
        · intro hany
          exfalso
          rw [List.any_cons] at hany
          have h1 : d.dependencies.any (dep_missing descs options) = false := by
            revert hany
            cases d.dependencies.any (dep_missing descs options) <;> simp
          have := (check_deps_of_char descs options loc d d.dependencies).1.mpr h1
          rw [this] at hd
          exact absurd hd (by simp)
      | ok u =>
        cases u
        rw [ihl.1, List.any_cons]
        have h1 : d.dependencies.any (dep_missing descs options) = false := by
          have := (check_deps_of_char descs options loc d d.dependencies).1.mp hd
          exact this
        rw [h1]
        simp
    · intro e heq
      rw [check_missing_aux] at heq
      split at heq
      · rename_i e2 hd
        rw [← Except.error.inj heq]
        exact (check_deps_of_char descs options loc d d.dependencies).2 e2 hd
      · exact ihl.2 e heq

/-- The missing-dependency pass succeeds exactly when `missing_dep_exists`
is false, and its errors are `not_found`. -/
theorem check_missing_char (descs : List descriptor)
    (options : build_options) (loc : String) :
    (check_missing_dependencies descs options loc = .ok () ↔
      missing_dep_exists descs options = false) ∧
    (∀ e, check_missing_dependencies descs options loc = .error e →
      is_not_found e.base = true) := by
  unfold check_missing_dependencies missing_dep_exists
  exact check_missing_aux_char descs options loc descs

/-- The captive-lifetime pass succeeds exactly when no singleton declares
a bare transient dependency, and its errors are `lifetime_mismatch`. -/
theorem check_lifetime_char (loc : String) :
    ∀ l, (check_lifetime_rules loc l = .ok () ↔ has_captive l = false) ∧
      (∀ e, check_lifetime_rules loc l = .error e →
        is_lifetime_mismatch e.base = true) := by
  intro l
  induction l with
  | nil =>
    constructor
    · simp [check_lifetime_rules, has_captive]
    · intro e heq
      rw [check_lifetime_rules] at heq
      exact absurd heq (by simp)
  | cons d rest ihl =>
    have hcap : has_captive (d :: rest) =
        ((decide (d.lifetime = .singleton)
          && d.dependencies.any fun dep => dep.is_transient && !dep.is_collection)
         || has_captive rest) := by
      unfold has_captive
      rw [List.any_cons]
    by_cases hsing : d.lifetime = .singleton
    · cases hfind : d.dependencies.find? (fun dep => dep.is_transient && !dep.is_collection) with
      | some dep =>
        have hany : (d.dependencies.any fun dep => dep.is_transient && !dep.is_collection) = true := by
          rw [List.any_eq_true]
          exact ⟨dep, List.mem_of_find?_eq_some hfind,
            @List.find?_some dependency_info
              (fun dep => dep.is_transient && !dep.is_collection) dep
              d.dependencies hfind⟩
        constructor
        · rw [check_lifetime_rules, if_pos hsing, hfind]
          constructor
          · intro hcontra
            exact absurd hcontra (by simp)
          · intro hcontra
            rw [hcap, hsing, hany] at hcontra
            simp at hcontra
        · intro e heq
          rw [check_lifetime_rules, if_pos hsing, hfind] at heq
          rw [← Except.error.inj heq]
          rfl
      | none =>
        have hany : (d.dependencies.any fun dep => dep.is_transient && !dep.is_collection) = false := by
          rw [← Bool.not_eq_true]
          intro hcontra
          rw [List.any_eq_true] at hcontra
          obtain ⟨dep, hmem, hdep⟩ := hcontra
          have := List.find?_eq_none.mp hfind dep hmem
          exact this hdep
        constructor
        · rw [check_lifetime_rules, if_pos hsing, hfind, ihl.1, hcap, hany]
          simp
        · intro e heq
          rw [check_lifetime_rules, if_pos hsing, hfind] at heq
          exact ihl.2 e heq
    · have hlt : decide (d.lifetime = .singleton) = false := decide_eq_false hsing
      constructor
      · rw [check_lifetime_rules, if_neg hsing, ihl.1, hcap, hlt]
        simp
      · intro e heq
        rw [check_lifetime_rules, if_neg hsing] at heq
        exact ihl.2 e heq

/-- Eager singleton instantiation only raises runtime-kind errors. -/
theorem eager_resolve_kind (descs : List descriptor) (fuel : Nat) :
    ∀ l st e, eager_resolve descs fuel st l = .error e →
      runtime_error_kind e.base = true := by
  intro l
  induction l with
  | nil =>
    intro st e heq
    rw [eager_resolve] at heq
    exact absurd heq (by simp)
  | cons i rest ihl =>
    intro st e heq
    rw [eager_resolve] at heq
    split at heq
    · rename_i e2 st2 hres
      rw [← Except.error.inj heq]
      exact (runtime_kinds descs fuel).1 _ _ _ _ hres
    · exact ihl _ _ heq

/-- The error kinds are mutually exclusive. -/
theorem kind_disjoint (b : error_base) :
    (is_not_found b = true → is_lifetime_mismatch b = false) ∧
    (is_lifetime_mismatch b = true → is_not_found b = false) ∧
    (runtime_error_kind b = true → is_lifetime_mismatch b = false) ∧
    (runtime_error_kind b = true → is_not_found b = true ∨ is_not_found b = false) := by
  cases b <;>
    simp [is_not_found, is_lifetime_mismatch, runtime_error_kind,
      is_cyclic_dependency, is_duplicate_registration]

/-- Claim C7, counterexample: `cfg_captive_missing` declares a captive
dependency (`IS` singleton with a bare transient dependency on the
never-registered `IT`), yet `build` with default options raises
`not_found` — not `lifetime_mismatch` — because the missing-dependency
pass runs before the captive-lifetime pass. -/
theorem c7_refuted :
    (match cfg_captive_missing.bind (fun r => build r default_build_options "" 50) with
     | .error e => is_not_found e.base && !is_lifetime_mismatch e.base
     | .ok _ => false) = true ∧
    (match cfg_captive_missing with
     | .ok r => has_captive (apply_decorators r.decorators
         (expand_forwards r.descriptors r.forwards))
     | .error _ => false) = true := by
  exact ⟨rfl, rfl⟩

/-- Claim C7, amended: among configurations that pass the
missing-dependency pass (which runs first), `build` with default options
raises `lifetime_mismatch` if and only if some singleton descriptor of the
final (post-expansion) vector declares a dependency with
`is_transient = true` and `is_collection = false`; and with
`validate_lifetimes = false` the captive check is skipped — a build can
then never fail with `lifetime_mismatch`. -/
theorem c7_captive_rejection (r : registry) (fuel : Nat) (loc : String)
    (hbuilt : r.built = false)
    (hmiss : check_missing_dependencies
      (apply_decorators r.decorators (expand_forwards r.descriptors r.forwards))
      default_build_options loc = .ok ()) :
    ((∃ e, build r default_build_options loc fuel = .error e ∧
        is_lifetime_mismatch e.base = true) ↔
      has_captive (apply_decorators r.decorators
        (expand_forwards r.descriptors r.forwards)) = true) ∧
    (∀ e, build r ⟨true, false, true, true, true⟩ loc fuel = .error e →
      is_lifetime_mismatch e.base = false) := by
  have hv1 : default_build_options.validate_on_build = true := rfl
  have hv2 : default_build_options.validate_lifetimes = true := rfl
  have hv3 : default_build_options.detect_cycles = true := rfl
  have hv4 : default_build_options.eager_singletons = true := rfl
  constructor
  · simp only [build, hbuilt, Bool.false_eq_true, if_false, hv1, if_true,
      validate_descriptors, hmiss, hv2, hv3, hv4]
    cases hlife : check_lifetime_rules loc
        (apply_decorators r.decorators (expand_forwards r.descriptors r.forwards)) with
    | error e0 =>
      constructor
      · intro _
        cases hc : has_captive (apply_decorators r.decorators
            (expand_forwards r.descriptors r.forwards)) with
        | true => rfl
        | false =>
          exfalso
          have := (check_lifetime_char loc _).1.mpr hc
          rw [this] at hlife
          exact absurd hlife (by simp)
      · intro _
        exact ⟨e0, rfl, (check_lifetime_char loc _).2 e0 hlife⟩
    | ok u =>
      cases u
      have hnc : has_captive (apply_decorators r.decorators
          (expand_forwards r.descriptors r.forwards)) = false :=
        (check_lifetime_char loc _).1.mp hlife
      rw [hnc]
      cases hcyc : check_cycles (apply_decorators r.decorators
          (expand_forwards r.descriptors r.forwards)) loc fuel with
      | error ec =>
        constructor
        · rintro ⟨e, he, hkind⟩
          have hec : ec = e := Except.error.inj he
          rw [check_cycles] at hcyc
          have := (check_cycles_aux_kind _ loc fuel _ _ _ hcyc).1
          rw [hec] at this
          rw [this] at hkind
          exact absurd hkind (by simp)
        · intro hcontra
          exact absurd hcontra (by simp)
      | ok u2 =>
        cases u2
        cases heag : eager_resolve (apply_decorators r.decorators
            (expand_forwards r.descriptors r.forwards)) fuel initial_state
            (singleton_indices (apply_decorators r.decorators
              (expand_forwards r.descriptors r.forwards))) with
        | error ee =>
          constructor
          · rintro ⟨e, he, hkind⟩
            have hee : ee = e := Except.error.inj he
            have := eager_resolve_kind _ fuel _ _ _ heag
            have hlk := (kind_disjoint ee.base).2.2.1 this
            rw [hee] at hlk
            rw [hlk] at hkind
            exact absurd hkind (by simp)
          · intro hcontra
            exact absurd hcontra (by simp)
        | ok stf =>
          constructor
          · rintro ⟨e, he, hkind⟩
            exact absurd he (by simp)
          · intro hcontra
            exact absurd hcontra (by simp)
  · intro e heq
    rw [build, hbuilt] at heq
    simp only [Bool.false_eq_true, if_false] at heq
    rw [validate_descriptors] at heq
    cases hm : check_missing_dependencies
        (apply_decorators r.decorators (expand_forwards r.descriptors r.forwards))
        ⟨true, false, true, true, true⟩ loc with
    | error em =>
      rw [hm] at heq
      simp at heq
      have hnf := (check_missing_char _ _ loc).2 em hm
      have hdis := (kind_disjoint em.base).1 hnf
      rw [heq] at hdis
      exact hdis
    | ok u =>
      cases u
      rw [hm] at heq
      cases hcyc : check_cycles (apply_decorators r.decorators
          (expand_forwards r.descriptors r.forwards)) loc fuel with
      | error ec =>
        rw [hcyc] at heq
        simp at heq
        rw [check_cycles] at hcyc
        have hdis := (check_cycles_aux_kind _ loc fuel _ _ _ hcyc).1
        rw [heq] at hdis
        exact hdis
      | ok u2 =>
        cases u2
        rw [hcyc] at heq
        cases heag : eager_resolve (apply_decorators r.decorators
            (expand_forwards r.descriptors r.forwards)) fuel initial_state
            (singleton_indices (apply_decorators r.decorators
              (expand_forwards r.descriptors r.forwards))) with
        | error ee =>
          rw [heag] at heq
          simp at heq
          have hrt := eager_resolve_kind _ fuel _ _ _ heag
          have hdis := (kind_disjoint ee.base).2.2.1 hrt
          rw [heq] at hdis
          exact hdis
        | ok stf =>
          rw [heag] at heq
          simp at heq

/-- Witness for `c7_captive_rejection` on the captive scenario (transient
`IT`, singleton `IS` with a bare transient dependency on `IT`). -/
theorem c7_captive_rejection_witness :
    (reg_of cfg_captive).built = false ∧
    check_missing_dependencies (apply_decorators (reg_of cfg_captive).decorators
      (expand_forwards (reg_of cfg_captive).descriptors (reg_of cfg_captive).forwards))
      default_build_options "" = .ok () ∧
    (((∃ e, build (reg_of cfg_captive) default_build_options "" 50 = .error e ∧
        is_lifetime_mismatch e.base = true) ↔
      has_captive (apply_decorators (reg_of cfg_captive).decorators
        (expand_forwards (reg_of cfg_captive).descriptors
          (reg_of cfg_captive).forwards)) = true) ∧
    (∀ e, build (reg_of cfg_captive) ⟨true, false, true, true, true⟩ "" 50 = .error e →
      is_lifetime_mismatch e.base = false)) :=
  ⟨rfl, rfl, c7_captive_rejection (reg_of cfg_captive) 50 "" rfl rfl⟩

/-- Claim C8, counterexample: building `cfg_placeholder_eager` with
default options raises `not_found` although no descriptor of the final
vector declares a missing dependency (every declared dependency slot is
occupied; the failure comes from the forward placeholder producing a null
instance during eager singleton instantiation). -/
theorem c8_refuted :
    (match cfg_placeholder_eager.bind (fun r => build r default_build_options "" 100) with
     | .error e => is_not_found e.base
     | .ok _ => false) = true ∧
    (match cfg_placeholder_eager with
     | .ok r => missing_dep_exists (apply_decorators r.decorators
         (expand_forwards r.descriptors r.forwards)) default_build_options
     | .error _ => true) = false := by
  exact ⟨rfl, rfl⟩

/-- Claim C8, amended: with validation enabled and eager singleton
instantiation disabled (so that only registration and validation can
fail), `build` raises `not_found` if and only if some descriptor of the
final vector declares a dependency whose slot
`(type, "", is_transient ? transient : singleton, is_collection)` is
unoccupied, where a collection dependency counts as satisfied whenever
`allow_empty_collections` is set and keyed registrations never satisfy a
dependency (the slot is looked up with the empty key).  Moreover, under
any options with validation enabled — eager instantiation included — a
successful build implies that no declared dependency is missing. -/
theorem c8_missing_rejection (r : registry) (fuel : Nat) (loc : String)
    (opts : build_options)
    (hbuilt : r.built = false) (hval : opts.validate_on_build = true)
    (heager : opts.eager_singletons = false) :
    ((∃ e, build r opts loc fuel = .error e ∧ is_not_found e.base = true) ↔
      missing_dep_exists (apply_decorators r.decorators
        (expand_forwards r.descriptors r.forwards)) opts = true) ∧
    (∀ (opts2 : build_options) (b : built_resolver),
      opts2.validate_on_build = true →
      build r opts2 loc fuel = .ok b →
      missing_dep_exists (apply_decorators r.decorators
        (expand_forwards r.descriptors r.forwards)) opts2 = false) := by
  have hgen : ∀ (opts2 : build_options) (b : built_resolver),
      opts2.validate_on_build = true →
      build r opts2 loc fuel = .ok b →
      missing_dep_exists (apply_decorators r.decorators
        (expand_forwards r.descriptors r.forwards)) opts2 = false := by
    intro opts2 b hv2 hb
    rw [build, hbuilt] at hb
    simp only [Bool.false_eq_true, if_false, hv2, if_true,
      validate_descriptors] at hb
    cases hm2 : check_missing_dependencies (apply_decorators r.decorators
        (expand_forwards r.descriptors r.forwards)) opts2 loc with
    | error em =>
      rw [hm2] at hb
      simp at hb
    | ok u =>
      cases u
      exact (check_missing_char _ opts2 loc).1.mp hm2
  refine ⟨?_, hgen⟩
  simp only [build, hbuilt, Bool.false_eq_true, if_false, hval, if_true,
    validate_descriptors, heager]
  cases hm : check_missing_dependencies
      (apply_decorators r.decorators (expand_forwards r.descriptors r.forwards))
      opts loc with
  | error em =>
    constructor
    · intro _
      cases hmde : missing_dep_exists (apply_decorators r.decorators
          (expand_forwards r.descriptors r.forwards)) opts with
      | true => rfl
      | false =>
        exfalso
        have := (check_missing_char _ opts loc).1.mpr hmde
        rw [this] at hm
        exact absurd hm (by simp)
    · intro _
      exact ⟨em, rfl, (check_missing_char _ opts loc).2 em hm⟩
  | ok u =>
    cases u
    have hnm : missing_dep_exists (apply_decorators r.decorators
        (expand_forwards r.descriptors r.forwards)) opts = false :=
      (check_missing_char _ opts loc).1.mp hm
    rw [hnm]
    simp only [Bool.false_eq_true, iff_false]
    rintro ⟨e, he, hkind⟩
    cases hlf : (if opts.validate_lifetimes = true then
        check_lifetime_rules loc (apply_decorators r.decorators
          (expand_forwards r.descriptors r.forwards)) else .ok ()) with
    | error el =>
      rw [hlf] at he
      simp at he
      have hel : is_lifetime_mismatch el.base = true := by
        cases hvl : opts.validate_lifetimes with
        | false =>
          rw [hvl] at hlf
          simp at hlf
        | true =>
          rw [hvl] at hlf
          simp only [if_true] at hlf
          exact (check_lifetime_char loc _).2 el hlf
      have := (kind_disjoint el.base).2.1 hel
      rw [he] at this
      rw [this] at hkind
      exact absurd hkind (by simp)
    | ok u2 =>
      cases u2
      rw [hlf] at he
      cases hcy : (if opts.detect_cycles = true then
          check_cycles (apply_decorators r.decorators
            (expand_forwards r.descriptors r.forwards)) loc fuel else .ok ()) with
      | error ecy =>
        rw [hcy] at he
        simp at he
        have hecy : is_not_found ecy.base = false := by
          cases hdc : opts.detect_cycles with
          | false =>
            rw [hdc] at hcy
            simp at hcy
          | true =>
            rw [hdc] at hcy
            simp only [if_true] at hcy
            rw [check_cycles] at hcy
            exact (check_cycles_aux_kind _ loc fuel _ _ _ hcy).2
        rw [he] at hecy
        rw [hecy] at hkind
        exact absurd hkind (by simp)
      | ok u3 =>
        cases u3
        rw [hcy] at he
        simp at he

/-- Witness for `c8_missing_rejection` on a configuration with one
missing dependency (`A` needs the unregistered `B`). -/
theorem c8_missing_rejection_witness :
    (reg_of cfg_missing).built = false ∧
    no_eager_options.validate_on_build = true ∧
    no_eager_options.eager_singletons = false ∧
    (((∃ e, build (reg_of cfg_missing) no_eager_options "" 50 = .error e ∧
        is_not_found e.base = true) ↔
      missing_dep_exists (apply_decorators (reg_of cfg_missing).decorators
        (expand_forwards (reg_of cfg_missing).descriptors
          (reg_of cfg_missing).forwards)) no_eager_options = true) ∧
    (∀ (opts2 : build_options) (b : built_resolver),
      opts2.validate_on_build = true →
      build (reg_of cfg_missing) opts2 "" 50 = .ok b →
      missing_dep_exists (apply_decorators (reg_of cfg_missing).decorators
        (expand_forwards (reg_of cfg_missing).descriptors
          (reg_of cfg_missing).forwards)) opts2 = false)) :=
  ⟨rfl, rfl, rfl, c8_missing_rejection (reg_of cfg_missing) 50 "" no_eager_options rfl rfl rfl⟩

/-- A successful collection iteration returns exactly one value per slot
index, in slot order. -/
theorem get_coll_length (descs : List descriptor) :
    ∀ idxs fuel st l st', get_coll descs fuel st idxs = (.ok l, st') →
      l.length = idxs.length := by
  intro idxs
  induction idxs with
  | nil =>
    intro fuel st l st' heq
    cases fuel with
    | zero =>
      rw [get_coll] at heq
      exact absurd ((Prod.mk.injEq _ _ _ _).mp heq).1 (by simp)
    | succ n =>
      rw [get_coll] at heq
      have := Except.ok.inj ((Prod.mk.injEq _ _ _ _).mp heq).1
      rw [← this]
      rfl
  | cons i rest ih =>
    intro fuel st l st' heq
    cases fuel with
    | zero =>
      rw [get_coll] at heq
      exact absurd ((Prod.mk.injEq _ _ _ _).mp heq).1 (by simp)
    | succ n =>
      rw [get_coll] at heq
      split at heq
      · exact absurd ((Prod.mk.injEq _ _ _ _).mp heq).1 (by simp)
      · rename_i st1 hres
        split at heq
        · exact absurd ((Prod.mk.injEq _ _ _ _).mp heq).1 (by simp)
        · rename_i l2 st2 hrest
          have hl := Except.ok.inj ((Prod.mk.injEq _ _ _ _).mp heq).1
          rw [← hl]
          simp [ih n st1 l2 st2 hrest]

/-- Same for transient collection iteration. -/
theorem create_coll_length (descs : List descriptor) :
    ∀ idxs fuel st l st', create_coll descs fuel st idxs = (.ok l, st') →
      l.length = idxs.length := by
  intro idxs
  induction idxs with
  | nil =>
    intro fuel st l st' heq
    cases fuel with
    | zero =>
      rw [create_coll] at heq
      exact absurd ((Prod.mk.injEq _ _ _ _).mp heq).1 (by simp)
    | succ n =>
      rw [create_coll] at heq
      have := Except.ok.inj ((Prod.mk.injEq _ _ _ _).mp heq).1
      rw [← this]
      rfl
  | cons i rest ih =>
    intro fuel st l st' heq
    cases fuel with
    | zero =>
      rw [create_coll] at heq
      exact absurd ((Prod.mk.injEq _ _ _ _).mp heq).1 (by simp)
    | succ n =>
      rw [create_coll] at heq
      split at heq
      · exact absurd ((Prod.mk.injEq _ _ _ _).mp heq).1 (by simp)
      · rename_i st1 hres
        split at heq
        · exact absurd ((Prod.mk.injEq _ _ _ _).mp heq).1 (by simp)
        · rename_i l2 st2 hrest
          have hl := Except.ok.inj ((Prod.mk.injEq _ _ _ _).mp heq).1
          rw [← hl]
          simp [ih n st1 l2 st2 hrest]

/-- Claim C9: collection order and emptiness.  A missing or empty
collection slot yields an empty sequence without an error; a successful
enumeration via `get_collection_impl` / `create_collection_impl` returns
exactly one instance per descriptor in the slot; the slot lists its
descriptor indices in strictly increasing vector order; and
`register_collection` appends its descriptor at the end of the vector, so
slot order is the order of the `add_collection` calls.  The enumeration
order itself: a successful collection iteration is exactly a left-to-right
chain of per-index resolutions (element `k` of the output is the instance
resolved for element `k` of the slot's index list — `singleton_chain` /
`transient_chain`), and on the three-plugin vectors the full enumeration
computes to the instances of `A`, `B`, `C` in registration order (fresh
allocation numbers `0`, `1`, `2`, ghost invocation trace `[0, 1, 2]` for
the singleton slot), the slot's implementation types reading `[A, B, C]`. -/
theorem c9_collection_order :
    (∀ descs fuel (st : resolver_state) t key,
      slot_indices descs t key .singleton true = [] →
      get_collection_impl descs fuel st t key = (.ok [], st)) ∧
    (∀ descs fuel (st : resolver_state) t key,
      slot_indices descs t key .transient true = [] →
      create_collection_impl descs fuel st t key = (.ok [], st)) ∧
    (∀ descs fuel (st st' : resolver_state) t key l,
      get_collection_impl descs fuel st t key = (.ok l, st') →
      l.length = (slot_indices descs t key .singleton true).length) ∧
    (∀ descs fuel (st st' : resolver_state) t key l,
      create_collection_impl descs fuel st t key = (.ok l, st') →
      l.length = (slot_indices descs t key .transient true).length) ∧
    (∀ descs t key lt coll,
      List.Pairwise (· < ·) (slot_indices descs t key lt coll)) ∧
    (∀ (r : registry) t lt deps outcome key impl_type loc reg_trace api_name,
      r.built = false →
      register_collection r t lt deps outcome key impl_type loc reg_trace api_name =
        .ok { r with descriptors := r.descriptors ++
          [⟨t, lt, .auto_wired deps outcome, deps, key, true, impl_type,
            none, none, loc, reg_trace, api_name⟩] }) ∧
    (∀ descs fuel (st st' : resolver_state) idxs ps,
      get_coll descs fuel st idxs = (.ok ps, st') ↔
        singleton_chain descs fuel st idxs ps st') ∧
    (∀ descs fuel (st st' : resolver_state) idxs ps,
      create_coll descs fuel st idxs = (.ok ps, st') ↔
        transient_chain descs fuel st idxs ps st') ∧
    (get_collection_impl plugin_descs 20 initial_state "IPlugin" "" =
      (.ok [some 0, some 1, some 2],
        ⟨[(0, ⟨some 0, true⟩), (1, ⟨some 1, true⟩), (2, ⟨some 2, true⟩)],
          3, [0, 1, 2]⟩)) ∧
    ((slot_indices plugin_descs "IPlugin" "" .singleton true).map
        (fun i => (plugin_descs[i]?).bind fun d => d.impl_type) =
      [some "A", some "B", some "C"]) ∧
    (create_collection_impl transient_descs 20 initial_state "IJob" "" =
      (.ok [⟨some 0, true⟩, ⟨some 1, true⟩, ⟨some 2, true⟩], ⟨[], 3, []⟩)) := by
  refine ⟨?_, ?_, ?_, ?_, ?_, ?_, ?_, ?_, ?_, ?_, ?_⟩
  · intro descs fuel st t key h
    rw [get_collection_impl, h]
  · intro descs fuel st t key h
    rw [create_collection_impl, h]
  · intro descs fuel st st' t key l heq
    rw [get_collection_impl] at heq
    split at heq
    · rename_i h
      have := Except.ok.inj ((Prod.mk.injEq _ _ _ _).mp heq).1
      rw [← this, h]
      rfl
    · exact get_coll_length descs _ fuel st l st' heq
  · intro descs fuel st st' t key l heq
    rw [create_collection_impl] at heq
    split at heq
    · rename_i h
      have := Except.ok.inj ((Prod.mk.injEq _ _ _ _).mp heq).1
      rw [← this, h]
      rfl
    · exact create_coll_length descs _ fuel st l st' heq
  · intro descs t key lt coll
    exact List.Pairwise.filter _ (List.pairwise_lt_range descs.length)
  · intro r t lt deps outcome key impl_type loc reg_trace api_name hbuilt
    rw [register_collection, hbuilt]
    simp
  · intro dd fuel
    induction fuel with
    | zero =>
      intro st st' idxs ps
      constructor
      · intro h
        rw [get_coll] at h
        exact absurd ((Prod.mk.injEq _ _ _ _).mp h).1 (by simp)
      · intro h
        exact absurd h (by simp [singleton_chain])
    | succ n ih =>
      intro st st' idxs ps
      cases idxs with
      | nil =>
        constructor
        · intro h
          rw [get_coll] at h
          have h1 := (Prod.mk.injEq _ _ _ _).mp h
          exact ⟨(Except.ok.inj h1.1).symm, h1.2.symm⟩
        · rintro ⟨hps, hst⟩
          subst hps
          subst hst
          rw [get_coll]
      | cons i rest =>
        constructor
        · intro h
          rw [get_coll] at h
          split at h
          · exact absurd ((Prod.mk.injEq _ _ _ _).mp h).1 (by simp)
          · rename_i p0 st1 hres
            split at h
            · exact absurd ((Prod.mk.injEq _ _ _ _).mp h).1 (by simp)
            · rename_i l2 st2 hrest
              have h1 := (Prod.mk.injEq _ _ _ _).mp h
              have hps : p0 :: l2 = ps := Except.ok.inj h1.1
              have hst : st2 = st' := h1.2
              subst hst
              exact ⟨p0, st1, l2, hres, (ih st1 st2 rest l2).mp hrest, hps.symm⟩
        · rintro ⟨p0, st1, tl, hres, hchain, hps⟩
          subst hps
          rw [get_coll, hres]
          dsimp only
          rw [(ih st1 st' rest tl).mpr hchain]
  · intro dd fuel
    induction fuel with
    | zero =>
      intro st st' idxs ps
      constructor
      · intro h
        rw [create_coll] at h
        exact absurd ((Prod.mk.injEq _ _ _ _).mp h).1 (by simp)
      · intro h
        exact absurd h (by simp [transient_chain])
    | succ n ih =>
      intro st st' idxs ps
      cases idxs with
      | nil =>
        constructor
        · intro h
          rw [create_coll] at h
          have h1 := (Prod.mk.injEq _ _ _ _).mp h
          exact ⟨(Except.ok.inj h1.1).symm, h1.2.symm⟩
        · rintro ⟨hps, hst⟩
          subst hps
          subst hst
          rw [create_coll]
      | cons i rest =>
        constructor
        · intro h
          rw [create_coll] at h
          split at h
          · exact absurd ((Prod.mk.injEq _ _ _ _).mp h).1 (by simp)
          · rename_i ep0 st1 hres
            split at h
            · exact absurd ((Prod.mk.injEq _ _ _ _).mp h).1 (by simp)
            · rename_i l2 st2 hrest
              have h1 := (Prod.mk.injEq _ _ _ _).mp h
              have hps : ep0 :: l2 = ps := Except.ok.inj h1.1
              have hst : st2 = st' := h1.2
              subst hst
              exact ⟨ep0, st1, l2, hres, (ih st1 st2 rest l2).mp hrest, hps.symm⟩
        · rintro ⟨ep0, st1, tl, hres, hchain, hps⟩
          subst hps
          rw [create_coll, hres]
          dsimp only
          rw [(ih st1 st' rest tl).mpr hchain]
  · rfl
  · rfl
  · rfl

/-- Witness for `c9_collection_order`: an unregistered collection
enumerates to the empty sequence (both lifetimes), the three-plugin slots
enumerate as left-to-right chains producing the instances in registration
order, and a further `register_collection` appends its descriptor at the
end of the vector. -/
theorem c9_collection_order_witness :
    get_collection_impl ([] : List descriptor) 5 initial_state "X" "" =
      (.ok [], initial_state) ∧
    create_collection_impl ([] : List descriptor) 5 initial_state "X" "" =
      (.ok [], initial_state) ∧
    singleton_chain plugin_descs 20 initial_state [0, 1, 2]
      [some 0, some 1, some 2]
      ⟨[(0, ⟨some 0, true⟩), (1, ⟨some 1, true⟩), (2, ⟨some 2, true⟩)],
        3, [0, 1, 2]⟩ ∧
    transient_chain transient_descs 20 initial_state [0, 1, 2]
      [⟨some 0, true⟩, ⟨some 1, true⟩, ⟨some 2, true⟩] ⟨[], 3, []⟩ ∧
    register_collection (reg_of cfg_three_plugins) "IPlugin" .singleton [] .ok ""
        (some "D") "" "" "" =
      .ok { reg_of cfg_three_plugins with
        descriptors := (reg_of cfg_three_plugins).descriptors ++
          [⟨"IPlugin", .singleton, .auto_wired [] .ok, [], "", true, some "D",
            none, none, "", "", ""⟩] } :=
  ⟨c9_collection_order.1 [] 5 initial_state "X" "" rfl,
   c9_collection_order.2.1 [] 5 initial_state "X" "" rfl,
   (c9_collection_order.2.2.2.2.2.2.1 plugin_descs 20 initial_state
     ⟨[(0, ⟨some 0, true⟩), (1, ⟨some 1, true⟩), (2, ⟨some 2, true⟩)],
       3, [0, 1, 2]⟩ [0, 1, 2] [some 0, some 1, some 2]).mp (by rfl),
   (c9_collection_order.2.2.2.2.2.2.2.1 transient_descs 20 initial_state
     ⟨[], 3, []⟩ [0, 1, 2]
     [⟨some 0, true⟩, ⟨some 1, true⟩, ⟨some 2, true⟩]).mp (by rfl),
   c9_collection_order.2.2.2.2.2.1 (reg_of cfg_three_plugins) "IPlugin" .singleton
     [] .ok "" (some "D") "" "" "" rfl⟩

/-- Claim C10: decorator expansion feeds validation.  Applying a
decorator entry maps every descriptor position: a matched descriptor
(equal component type, and equal recorded implementation type when the
entry names a target) gets its factory wrapped and the extra dependencies
appended in order, an unmatched one is untouched; decorators apply in
registration order (the last entry wraps the result of all earlier ones);
and validation runs on the post-decorator vector, so a singleton decorated
with a bare transient extra dependency makes `build` with default options
fail with `lifetime_mismatch`. -/
theorem c10_decorator_validation :
    (∀ (dec : decorator_entry) (descs : List descriptor) (i : Nat) (d : descriptor),
      descs[i]? = some d →
      (apply_decorator_entry dec descs)[i]? =
        some (if decorator_matches dec d then
          { d with factory := .decorated d.factory dec.extra_deps dec.outcome,
                   dependencies := d.dependencies ++ dec.extra_deps }
        else d)) ∧
    (∀ (decs : List decorator_entry) (dec : decorator_entry) (descs : List descriptor),
      apply_decorators (decs ++ [dec]) descs =
        apply_decorator_entry dec (apply_decorators decs descs)) ∧
    (cfg_decorated_captive.bind (fun r => build r default_build_options "" 50) =
      .error ⟨.lifetime_mismatch "IS" "singleton" "IT" "transient" (some "SImpl") "", "", ""⟩) := by
  refine ⟨?_, ?_, ?_⟩
  · intro dec descs i d h
    rw [apply_decorator_entry, List.getElem?_map, h]
    rfl
  · intro decs dec descs
    rw [apply_decorators, apply_decorators, List.foldl_append]
    rfl
  · rfl

/-- Witness for `c10_decorator_validation`: the matched and unmatched
positions of a one-element vector under a targeted decorator entry. -/
theorem c10_decorator_validation_witness :
    reg_one_singleton.descriptors[0]? =
      some ⟨"IL", .singleton, .auto_wired [] .ok, [], "", false, some "LImpl",
        none, none, "", "", ""⟩ ∧
    (apply_decorator_entry ⟨"IL", some "LImpl", [dep_on "IB"], .ok, "", "", ""⟩
        reg_one_singleton.descriptors)[0]? =
      some (if decorator_matches ⟨"IL", some "LImpl", [dep_on "IB"], .ok, "", "", ""⟩
          (⟨"IL", .singleton, .auto_wired [] .ok, [], "", false, some "LImpl",
            none, none, "", "", ""⟩ : descriptor) then
        { (⟨"IL", .singleton, .auto_wired [] .ok, [], "", false, some "LImpl",
            none, none, "", "", ""⟩ : descriptor) with
          factory := .decorated (factory_fn.auto_wired [] .ok) [dep_on "IB"] .ok,
          dependencies := ([] : List dependency_info) ++ [dep_on "IB"] }
      else ⟨"IL", .singleton, .auto_wired [] .ok, [], "", false, some "LImpl",
        none, none, "", "", ""⟩) :=
  ⟨rfl,
   c10_decorator_validation.1 ⟨"IL", some "LImpl", [dep_on "IB"], .ok, "", "", ""⟩
     reg_one_singleton.descriptors 0
     ⟨"IL", .singleton, .auto_wired [] .ok, [], "", false, some "LImpl",
       none, none, "", "", ""⟩ rfl⟩

end Librtdi







